import Mathlib

/-!
# Orderly: the validation-state tree and the validation driver (`ajv_state.c`)

A shallow embedding of `src/src/ajv_state.c` (and of the older variant
`src/validator/ajv_state.c`) together with theorems about it.

Conventions of the embedding

* A C pointer that may be `NULL` is an `Option`; `none` is `NULL`.
* The owning links of a tree (`sibling`, `child`) hold the pointed-to subtree itself.
  The non-owning references to a state node (`parent`, the cursor `hand->node`,
  `error.node`) are addresses: every state node carries the address `addr` at which
  it was allocated.
* A reference to a schema node (`ajv_node.node`) is the schema node itself; the
  schema tree is never written.
* A C string is a `String` with one `Char` per byte, so `strlen` is `String.length`
  and `strcat` is `++`.  A string argument that may alias a buffer the callee releases
  (the `info` of `ajv_set_error`) is an `info_ptr`.
* The collaborators that are not part of the module (the tokenizer `yajl_*`, the
  event synthesizer `orderly_synthesize_callbacks`, the pattern compiler
  `pcre_compile`) are parameters of the functions that call them.  The tokenizer and
  the synthesizer call back into the driver, so they take and return the handle state.
* Whatever is reachable from the handle is part of the handle state: the bound schema
  `hand->s` is stored in the handle by value.
* The teardown is observed through the list of the releases it performs, in order.
-/

namespace Orderly

/-! ## Data model -/

/-- Modelled from the spec: the schema node `orderly_node`, declared in a header that
is not part of the sources.  The fields are those of the SchemaNode of the data model;
the code reads `name`, `regex`, `sibling` and `child`. -/
inductive orderly_node : Type
  | mk (name : Option String) (t : Nat) (required : Bool) (regex : Option String)
       (sibling : Option orderly_node) (child : Option orderly_node)

namespace orderly_node

def name : orderly_node → Option String
  | mk n _ _ _ _ _ => n

def t : orderly_node → Nat
  | mk _ t _ _ _ _ => t

def required : orderly_node → Bool
  | mk _ _ r _ _ _ => r

def regex : orderly_node → Option String
  | mk _ _ _ r _ _ => r

def sibling : orderly_node → Option orderly_node
  | mk _ _ _ _ s _ => s

def child : orderly_node → Option orderly_node
  | mk _ _ _ _ _ c => c

end orderly_node

/-- Modelled from the spec: the state node `ajv_node`, declared in `ajv_state.h`, which
is not part of the sources.  `addr` is the address of the node itself; `parent` is the
address of the enclosing node; `regcomp` is the pointer to the compiled pattern. -/
inductive ajv_node : Type
  | mk (addr : Nat) (parent : Option Nat) (node : orderly_node) (regcomp : Option Nat)
       (sibling : Option ajv_node) (child : Option ajv_node)
       (seen : Bool) (required : Bool)

namespace ajv_node

def addr : ajv_node → Nat
  | mk a _ _ _ _ _ _ _ => a

def parent : ajv_node → Option Nat
  | mk _ p _ _ _ _ _ _ => p

def node : ajv_node → orderly_node
  | mk _ _ n _ _ _ _ _ => n

def regcomp : ajv_node → Option Nat
  | mk _ _ _ r _ _ _ _ => r

def sibling : ajv_node → Option ajv_node
  | mk _ _ _ _ s _ _ _ => s

def child : ajv_node → Option ajv_node
  | mk _ _ _ _ _ c _ _ => c

def seen : ajv_node → Bool
  | mk _ _ _ _ _ _ s _ => s

def required : ajv_node → Bool
  | mk _ _ _ _ _ _ _ r => r

/-- The node at address `a` in the tree rooted at the given node, if there is one. -/
def find (a : Nat) : ajv_node → Option ajv_node
  | mk addr parent node regcomp sibling child seen required =>
    if addr = a then some (mk addr parent node regcomp sibling child seen required)
    else
      match (match sibling with
             | some s => find a s
             | none => none) with
      | some r => some r
      | none =>
        match child with
        | some c => find a c
        | none => none

end ajv_node

/-- Modelled from the spec: the error codes `ajv_error` of `api/ajv_parse.h`, which is
not part of the sources.  The named codes are those `ajv_error_to_string` switches on;
`unrecognized` stands for every other value of the C enum. -/
inductive ajv_error : Type
  | ajv_e_no_error
  | ajv_e_type_mismatch
  | ajv_e_trailing_input
  | ajv_e_out_of_range
  | ajv_e_incomplete_container
  | ajv_e_illegal_value
  | ajv_e_regex_failed
  | ajv_e_unexpected_key
  | unrecognized (code : Int)
  deriving DecidableEq

/-- The status codes of the tokenizer, `yajl_status` of `yajl/yajl_parse.h`. -/
inductive yajl_status : Type
  | yajl_status_ok
  | yajl_status_client_canceled
  | yajl_status_insufficient_data
  | yajl_status_error
  deriving DecidableEq

/-- Modelled from the spec: the error slot `struct ajv_error_t` of `ajv_state.h`, which
is not part of the sources: a code, an owned detail string and the offending node. -/
structure ajv_error_t where
  code : ajv_error
  extra_info : Option String
  node : Option Nat
  deriving DecidableEq

/-- Modelled from the spec: the compiled schema `ajv_schema`, declared in a header that
is not part of the sources.  The code reads its `root`, the root of the state tree, and
dereferences it without a check. -/
structure ajv_schema_t where
  root : ajv_node

/-- Modelled from the spec: the handle `struct ajv_state_t` of `ajv_state.h`, which is
not part of the sources.  `AF`, `cb`, `cbctx` and `yajl` are pointers the module only
passes on; `s` is the bound schema and `node` the cursor of the driver. -/
structure ajv_state_t where
  AF : Nat
  any : ajv_node
  cb : Nat
  cbctx : Nat
  yajl : Nat
  error : ajv_error_t
  s : Option ajv_schema_t
  node : Option Nat

/-- A state node `n` is reachable from `t` through a chain of sibling/child links. -/
inductive reachable : ajv_node → ajv_node → Prop
  | here (t : ajv_node) : reachable t t
  | through_sibling {t s n : ajv_node} : t.sibling = some s → reachable s n → reachable t n
  | through_child {t c n : ajv_node} : t.child = some c → reachable c n → reachable t n

/-- The state tree `a` has the shape of the schema tree `n`: the `node` field of `a` is
`n`, `a` has a sibling exactly when `n` has one and a child exactly when `n` has one, and
the same holds, position by position, below. -/
def mirrors : ajv_node → orderly_node → Prop
  | .mk _ _ node _ sibling child _ _, n =>
    node = n ∧
    (match sibling with
     | some sa => ∃ sn, n.sibling = some sn ∧ mirrors sa sn
     | none => n.sibling = none) ∧
    (match child with
     | some ca => ∃ cn, n.child = some cn ∧ mirrors ca cn
     | none => n.child = none)

/-- The state nodes of a tree: the node, then those of its sibling subtree, then those
of its child subtree. -/
def ajv_node.nodes : ajv_node → List ajv_node
  | .mk addr parent node regcomp sibling child seen required =>
    .mk addr parent node regcomp sibling child seen required ::
      ((match sibling with
        | some s => ajv_node.nodes s
        | none => []) ++
       (match child with
        | some c => ajv_node.nodes c
        | none => []))

/-- A state node `n` is on the sibling chain that starts at `t`: it is reached from `t`
through sibling links only. -/
inductive on_sibling_chain : ajv_node → ajv_node → Prop
  | first (t : ajv_node) : on_sibling_chain t t
  | next {t s n : ajv_node} : t.sibling = some s → on_sibling_chain s n → on_sibling_chain t n

/-- Every node on the sibling chain of `t` has parent `p`, and below every node of the
chain the nodes on the sibling chain of its child have that node as parent. -/
def parents_linked : ajv_node → Option Nat → Prop
  | .mk addr parent _ _ sibling child _ _, p =>
    parent = p ∧
    (match sibling with
     | some s => parents_linked s p
     | none => True) ∧
    (match child with
     | some c => parents_linked c (some addr)
     | none => True)

/-- The trees `a` and `b` differ at most in the flags `seen` and `required`: they have
the same links, and position by position the same address, parent reference, schema
reference and compiled matcher. -/
def same_except_flags : ajv_node → ajv_node → Prop
  | .mk addr parent node regcomp sibling child _ _, b =>
    b.addr = addr ∧ b.parent = parent ∧ b.node = node ∧ b.regcomp = regcomp ∧
    (match sibling with
     | some s => ∃ sb, b.sibling = some sb ∧ same_except_flags s sb
     | none => b.sibling = none) ∧
    (match child with
     | some c => ∃ cb, b.child = some cb ∧ same_except_flags c cb
     | none => b.child = none)

/-- The tree with every compiled matcher removed. -/
def ajv_node.without_matchers : ajv_node → ajv_node
  | .mk addr parent node _ sibling child seen required =>
    .mk addr parent node none
      (match sibling with
       | some s => some (ajv_node.without_matchers s)
       | none => none)
      (match child with
       | some c => some (ajv_node.without_matchers c)
       | none => none)
      seen required

/-! ## Tree construction -/

/-- Function `ajv_alloc_node` of `src/src/ajv_state.c`.  `alloc` is the address `OR_MALLOC` hands
out; `memset` leaves the links, the matcher and the flags zero. -/
def ajv_alloc_node (pcre_compile : String → Option Nat) (alloc : Nat)
    (onode : orderly_node) (parent : Option Nat) : ajv_node :=
  .mk alloc parent onode
    (match onode.regex with
     | some r => pcre_compile r
     | none => none)
    none none false false

/-- Function `ajv_alloc_tree` of `src/src/ajv_state.c`.  The allocator is a counter: `OR_MALLOC`
returns the address `alloc` and the next call returns the next one.  The result is the
tree and the allocator after the call. -/
def ajv_alloc_tree (pcre_compile : String → Option Nat) :
    Nat → orderly_node → Option Nat → ajv_node × Nat
  | alloc, .mk name t required regex sibling child, parent =>
    let an := ajv_alloc_node pcre_compile alloc (.mk name t required regex sibling child) parent
    let rs : Option ajv_node × Nat :=
      match sibling with
      | some s =>
        let r := ajv_alloc_tree pcre_compile (alloc + 1) s parent
        (some r.1, r.2)
      | none => (none, alloc + 1)
    let rc : Option ajv_node × Nat :=
      match child with
      | some c =>
        let r := ajv_alloc_tree pcre_compile rs.2 c (some an.addr)
        (some r.1, r.2)
      | none => (none, rs.2)
    (.mk an.addr an.parent an.node an.regcomp rs.1 rc.1 an.seen an.required, rc.2)

/-- Function `ajv_alloc_node_recursive` of `src/validator/ajv_state.c`: the older variant, whose
`ajv_alloc_node` only zeroes the node; `node` and `parent` are set after the recursion. -/
def ajv_alloc_node_recursive : Nat → orderly_node → Option Nat → ajv_node × Nat
  | alloc, .mk name t required regex sibling child, parent =>
    let rs : Option ajv_node × Nat :=
      match sibling with
      | some s =>
        let r := ajv_alloc_node_recursive (alloc + 1) s parent
        (some r.1, r.2)
      | none => (none, alloc + 1)
    let rc : Option ajv_node × Nat :=
      match child with
      | some c =>
        let r := ajv_alloc_node_recursive rs.2 c (some alloc)
        (some r.1, r.2)
      | none => (none, rs.2)
    (.mk alloc parent (.mk name t required regex sibling child) none rs.1 rc.1 false false, rc.2)

/-! ## Tree reset -/

/-- Function `ajv_reset_node` of `src/src/ajv_state.c`. -/
def ajv_reset_node : ajv_node → ajv_node
  | .mk addr parent node regcomp sibling child _ _ =>
    .mk addr parent node regcomp
      (match sibling with
       | some s => some (ajv_reset_node s)
       | none => none)
      (match child with
       | some c => some (ajv_reset_node c)
       | none => none)
      false false

/-! ## Tree teardown -/

/-- A release performed by the teardown: `OR_FREE` of the state node at an address, or
`pcre_free` of a compiled matcher. -/
inductive release : Type
  | OR_FREE (addr : Nat)
  | pcre_free (regcomp : Nat)
  deriving DecidableEq

/-- The address of the state node a release frees, if it frees one. -/
def release.freed_node : release → Option Nat
  | .OR_FREE addr => some addr
  | .pcre_free _ => none

/-- The body of `ajv_free_node` of `src/src/ajv_state.c` for a reference that holds a
tree (`n && *n`): the releases in the order they are performed.  The recursive calls are
made on the links that are not `NULL`. -/
def ajv_free_node_releases : ajv_node → List release
  | .mk addr _ _ regcomp sibling child _ _ =>
    (match sibling with
     | some s => ajv_free_node_releases s
     | none => []) ++
    (match child with
     | some c => ajv_free_node_releases c
     | none => []) ++
    (match regcomp with
     | some r => [release.pcre_free r]
     | none => []) ++
    [release.OR_FREE addr]

/-- Function `ajv_free_node` of `src/src/ajv_state.c`.  The argument is the `ajv_node **`:
`none` is a `NULL` argument, `some none` a reference that holds `NULL`.  The result is the
reference after the call and the releases performed. -/
def ajv_free_node (n : Option (Option ajv_node)) : Option (Option ajv_node) × List release :=
  match n with
  | some (some t) => (some none, ajv_free_node_releases t)
  | some none => (some none, [])
  | none => (none, [])

/-- The body of `ajv_free_node` of `src/validator/ajv_state.c`, the older variant, which
has no matcher to release. -/
def validator.ajv_free_node_releases : ajv_node → List release
  | .mk addr _ _ _ sibling child _ _ =>
    (match sibling with
     | some s => validator.ajv_free_node_releases s
     | none => []) ++
    (match child with
     | some c => validator.ajv_free_node_releases c
     | none => []) ++
    [release.OR_FREE addr]

/-- Function `ajv_free_node` of `src/validator/ajv_state.c`.  It is declared to return an
`ajv_node *` and has no `return` statement; the result here is its effect. -/
def validator.ajv_free_node (n : Option (Option ajv_node)) :
    Option (Option ajv_node) × List release :=
  match n with
  | some (some t) => (some none, validator.ajv_free_node_releases t)
  | some none => (some none, [])
  | none => (none, [])

/-! ## Error slot -/

/-- Function `ajv_clear_error` of `src/src/ajv_state.c`.  Releasing the detail string has no
effect on the handle state beyond the three assignments. -/
def ajv_clear_error (s : ajv_state_t) : ajv_state_t :=
  let s := { s with error := { s.error with code := ajv_error.ajv_e_no_error } }
  let s := { s with error := { s.error with extra_info := none } }
  { s with error := { s.error with node := none } }

/-- Modelled from the spec: the macro `BUF_STRDUP` of a header that is not part of the
sources; `ajv_set_error` calls it with the string and its `strlen`, and it stores an
owned copy of the string. -/
def BUF_STRDUP (ob : String) : String := ob

/-- The argument `info` of `ajv_set_error`, a `const char *`.  `own info` is `NULL` or
points to a string that is not the detail of the slot.  `slot_detail after_free` is the
pointer `s->error.extra_info` itself: `ajv_clear_error` releases that buffer before
`info` is read, and `after_free` is what the released buffer holds when it is read. -/
inductive info_ptr : Type
  | own (info : Option String)
  | slot_detail (after_free : String)

/-- Function `ajv_set_error` of `src/src/ajv_state.c`.  When `info` is the detail pointer of
the slot, it is `NULL` exactly when the slot has no detail; otherwise `BUF_STRDUP` reads
the buffer that `ajv_clear_error` has just released. -/
def ajv_set_error (s : ajv_state_t) (e : ajv_error) (node : Option Nat)
    (info : info_ptr) : ajv_state_t :=
  let detail := s.error.extra_info
  let s := ajv_clear_error s
  let s := { s with error := { s.error with node := node } }
  let s := { s with error := { s.error with code := e } }
  match info with
  | .own (some i) => { s with error := { s.error with extra_info := some (BUF_STRDUP i) } }
  | .own none => s
  | .slot_detail after_free =>
    match detail with
    | some _ =>
      { s with error := { s.error with extra_info := some (BUF_STRDUP after_free) } }
    | none => s

/-- Function `ajv_error_to_string` of `src/src/ajv_state.c`. -/
def ajv_error_to_string (e : ajv_error) : String :=
  match e with
  | .ajv_e_type_mismatch => "type mismatch"
  | .ajv_e_trailing_input => "input continued validation completed"
  | .ajv_e_out_of_range => "value out of range"
  | .ajv_e_incomplete_container => "incomplete structure"
  | .ajv_e_illegal_value => "value not permitted"
  | .ajv_e_regex_failed => "string did not match regular expression"
  | .ajv_e_unexpected_key => "key not permitted"
  | _ => "Internal error: unrecognized error code"

/-- The value of a C `int` after an assignment: the mathematical value reduced to the
32-bit two's complement range. -/
def c_int (x : Int) : Int := (x + 2 ^ 31) % 2 ^ 32 - 2 ^ 31

/-- The value of an `int` converted to `unsigned int`, the type of the size that
`OR_MALLOC` takes. -/
def c_unsigned (x : Int) : Int := x % 2 ^ 32

/-- The macro `ERROR_BASE_LENGTH`. -/
def ERROR_BASE_LENGTH : Int := 1024

/-- The state node a non-owning reference `a` of the handle points to: the handle's
own `any` node or a node of the bound schema's state tree.  `none` when the address
is none of them. -/
def ajv_state_t.deref (hand : ajv_state_t) (a : Nat) : Option ajv_node :=
  if hand.any.addr = a then some hand.any
  else
    match hand.s with
    | some schema => schema.root.find a
    | none => none

/-- The name `ajv_get_error` prints for the handle, the value of `e->node->node->name`
under the test `e->node && e->node->node->name`: `some none` when `error.node` is `NULL`
or its schema node has no name, `none` when `error.node` is not the address of a state
node of the handle. -/
def ajv_state_t.error_name (hand : ajv_state_t) : Option (Option String) :=
  match hand.error.node with
  | none => some none
  | some a =>
    match hand.deref a with
    | some n => some n.node.name
    | none => none

/-- The locals `yajl_err` and `yajl_length` of `ajv_get_error` after the
`if (verbose == 1)` statement.  They are declared without an initialiser, so outside
that branch they keep their indeterminate initial values `yajl_err_init` and
`yajl_length_init`. -/
def ajv_get_error_locals (yajl_get_error : Nat → Int → List UInt8 → Nat → String)
    (yajl_err_init : Option String) (yajl_length_init : Int)
    (hand : ajv_state_t) (verbose : Int) (jsonText : List UInt8) (jsonTextLength : Nat) :
    Option String × Int :=
  if verbose = 1 then
    let yajl_err := yajl_get_error hand.yajl verbose jsonText jsonTextLength
    (some yajl_err, c_int yajl_err.length)
  else (yajl_err_init, yajl_length_init)

/-- The value of `max_length` in `ajv_get_error` when the buffer is allocated; `name` is
the name of the offending node's schema node when `e->node && e->node->node->name`. -/
def ajv_get_error_max_length (e : ajv_error_t) (yajl_length : Int) (name : Option String) :
    Int :=
  let max_length := ERROR_BASE_LENGTH
  let max_length := c_int (max_length +
    (match e.extra_info with
     | some i => (i.length : Int)
     | none => 1))
  let max_length := c_int (max_length + yajl_length)
  match name with
  | some nm => c_int (max_length + nm.length)
  | none => max_length

/-- The string the `strcat` calls of `ajv_get_error` compose. -/
def ajv_get_error_ret (e : ajv_error_t) (yajl_err : Option String) (name : Option String) :
    String :=
  let ret := ""
  let ret := ret ++ "VALIDATION ERROR:"
  let ret :=
    match name with
    | some nm => ret ++ " value for map key '" ++ nm ++ "':"
    | none => ret
  let ret := ret ++ ajv_error_to_string e.code
  let ret := ret ++ "\n"
  match yajl_err with
  | some y => ret ++ y
  | none => ret

/-- Function `ajv_get_error` of `src/src/ajv_state.c`.  `yajl_get_error` is the tokenizer's own
error formatter.  The result is `none` when the behaviour of the C code is undefined:
`error.node` is not the address of a state node of the handle, or the composed string
and its terminator do not fit the buffer.  The buffer has `max_length + 1` bytes, the
`int` converted to the unsigned size of `OR_MALLOC`; the allocation is taken to succeed. -/
def ajv_get_error (yajl_get_error : Nat → Int → List UInt8 → Nat → String)
    (yajl_err_init : Option String) (yajl_length_init : Int)
    (hand : ajv_state_t) (verbose : Int) (jsonText : List UInt8) (jsonTextLength : Nat) :
    Option String :=
  let e := hand.error
  if e.code = ajv_error.ajv_e_no_error then
    some (yajl_get_error hand.yajl verbose jsonText jsonTextLength)
  else
    let locals := ajv_get_error_locals yajl_get_error yajl_err_init yajl_length_init
      hand verbose jsonText jsonTextLength
    match hand.error_name with
    | none => none
    | some name =>
      let max_length := ajv_get_error_max_length e locals.2 name
      let ret := ajv_get_error_ret e locals.1 name
      if (ret.length : Int) + 1 ≤ c_unsigned (c_int (max_length + 1)) then some ret
      else none

/-- The length `ajv_get_error` reserves for the detail of the error: `strlen` of the
detail, or `1` when there is none. -/
def detail_length (e : ajv_error_t) : Nat :=
  match e.extra_info with
  | some i => i.length
  | none => 1

/-- The `strlen` of the name of the offending node, `0` when it has no name. -/
def name_length (name : Option String) : Nat :=
  match name with
  | some nm => nm.length
  | none => 0

/-- The map-key context of a message: the quoted name when there is one, else nothing. -/
def name_context (name : Option String) : String :=
  match name with
  | some nm => " value for map key '" ++ nm ++ "':"
  | none => ""

/-! ## Validation driver -/

/-- The statements of `ajv_parse_and_validate` (lines 173-176) and of `ajv_validate`
(lines 193-197) that bind a schema, up to the call that delivers the events.  The
cursor `hand->node` is the address of the schema's root, and `ajv_reset_node` writes
through it into the tree of the bound schema. -/
def ajv_bind_schema (hand : ajv_state_t) (schema : ajv_schema_t) : ajv_state_t :=
  let hand := ajv_clear_error hand
  let hand := { hand with s := some schema }
  let hand := { hand with node := some schema.root.addr }
  { hand with s := some { schema with root := ajv_reset_node schema.root } }

/-- The outcome of the tokenizer's feed in `ajv_parse_and_validate` (lines 172-179): the
status `yajl_parse` returns and the handle state its callbacks leave.  A schema that is
not `NULL` is bound first. -/
def ajv_parse_and_validate_feed
    (yajl_parse : ajv_state_t → List UInt8 → Nat → yajl_status × ajv_state_t)
    (hand : ajv_state_t) (jsonText : List UInt8) (jsonTextLength : Nat)
    (schema : Option ajv_schema_t) : yajl_status × ajv_state_t :=
  let hand :=
    match schema with
    | some sch => ajv_bind_schema hand sch
    | none => hand
  yajl_parse hand jsonText jsonTextLength

/-- Function `ajv_parse_and_validate` of `src/src/ajv_state.c`.  `yajl_parse` is the tokenizer's
feed, which runs the driver's callbacks on the handle.  The result is `none` when the
`assert` fails and the program is aborted. -/
def ajv_parse_and_validate
    (yajl_parse : ajv_state_t → List UInt8 → Nat → yajl_status × ajv_state_t)
    (hand : ajv_state_t) (jsonText : List UInt8) (jsonTextLength : Nat)
    (schema : Option ajv_schema_t) : Option (yajl_status × ajv_state_t) :=
  let r := ajv_parse_and_validate_feed yajl_parse hand jsonText jsonTextLength schema
  let stat := r.1
  let hand := r.2
  if hand.error.code ≠ ajv_error.ajv_e_no_error then
    if stat = yajl_status.yajl_status_client_canceled then
      some (yajl_status.yajl_status_error, hand)
    else none
  else some (stat, hand)

/-- Function `ajv_validate` of `src/src/ajv_state.c`.  `orderly_synthesize_callbacks` walks the
value tree `json` and runs the driver's callbacks on the handle; its `int` result is
`1` when the walk was cancelled. -/
def ajv_validate {J : Type}
    (orderly_synthesize_callbacks : ajv_state_t → J → Int × ajv_state_t)
    (hand : ajv_state_t) (schema : ajv_schema_t) (json : J) : yajl_status × ajv_state_t :=
  let ret := yajl_status.yajl_status_ok
  let hand := ajv_bind_schema hand schema
  let r := orderly_synthesize_callbacks hand json
  let cancelled := r.1
  let hand := r.2
  if cancelled = 1 then
    if hand.error.code = ajv_error.ajv_e_no_error then
      (yajl_status.yajl_status_client_canceled, hand)
    else (yajl_status.yajl_status_error, hand)
  else (ret, hand)

/-- Function `ajv_parse_complete` of `src/src/ajv_state.c`.  `yajl_parse_complete` is the
tokenizer's completion call.  The result is `none` when `hand->s` is `NULL` where the
code dereferences it. -/
def ajv_parse_complete
    (yajl_parse_complete : ajv_state_t → yajl_status × ajv_state_t)
    (hand : ajv_state_t) : Option (yajl_status × ajv_state_t) :=
  let r := yajl_parse_complete hand
  let stat := r.1
  let hand := r.2
  if stat = yajl_status.yajl_status_ok ∨ stat = yajl_status.yajl_status_insufficient_data then
    match hand.s with
    | none => none
    | some schema =>
      if schema.root.seen = false then
        some (yajl_status.yajl_status_error,
          ajv_set_error hand ajv_error.ajv_e_incomplete_container none
            (info_ptr.own (some "Empty root")))
      else some (stat, hand)
  else some (stat, hand)

/-- The callbacks a tokenizer runs record an error only when they cancel: a feed whose
status is not `yajl_status_client_canceled` leaves the error slot as it found it. -/
def records_only_when_cancelling
    (yajl_parse : ajv_state_t → List UInt8 → Nat → yajl_status × ajv_state_t) : Prop :=
  ∀ (hand : ajv_state_t) (jsonText : List UInt8) (jsonTextLength : Nat),
    (yajl_parse hand jsonText jsonTextLength).1 ≠ yajl_status.yajl_status_client_canceled →
      (yajl_parse hand jsonText jsonTextLength).2.error = hand.error

/-! ## Concrete inputs

A schema for an object with a member `x`, required and constrained by a pattern, and a
member `y`; a state tree for it whose flags are left over from an earlier run; and two
handles. -/

def schema_y : orderly_node :=
  .mk (some "y") 3 false none none none

def schema_x : orderly_node :=
  .mk (some "x") 2 true (some "^[0-9]+$") (some schema_y) none

def schema_root : orderly_node :=
  .mk none 1 false none none (some schema_x)

def state_y : ajv_node :=
  .mk 12 (some 10) schema_y none none none true true

def state_x : ajv_node :=
  .mk 11 (some 10) schema_x (some 77) (some state_y) none true false

def state_root : ajv_node :=
  .mk 10 none schema_root none none (some state_x) true true

def used_schema : ajv_schema_t :=
  { root := state_root }

def any_node : ajv_node :=
  .mk 1 none (.mk none 0 false none none none) none none none false false

/-- A handle on which an earlier run recorded a type mismatch at the node `x`. -/
def failed_handle : ajv_state_t :=
  { AF := 0, any := any_node, cb := 0, cbctx := 0, yajl := 5,
    error :=
      { code := ajv_error.ajv_e_type_mismatch, extra_info := some "number", node := some 11 },
    s := some used_schema, node := some 11 }

/-- A handle that was never used: no error, no schema bound. -/
def fresh_handle : ajv_state_t :=
  { AF := 0, any := any_node, cb := 0, cbctx := 0, yajl := 5,
    error := { code := ajv_error.ajv_e_no_error, extra_info := none, node := none },
    s := none, node := none }

/-- An event source that delivers no event: the tokenizer's feed on input without a
token. -/
def yajl_parse_no_event (hand : ajv_state_t) (_jsonText : List UInt8) (_len : Nat) :
    yajl_status × ajv_state_t :=
  (yajl_status.yajl_status_ok, hand)

/-- A synthesizer that delivers no event and is not cancelled. -/
def synthesize_no_event {J : Type} (hand : ajv_state_t) (_json : J) : Int × ajv_state_t :=
  (0, hand)

/-- A feed during which a callback of the driver finds a value of the wrong type at the
cursor, records the error and cancels. -/
def yajl_parse_type_mismatch (hand : ajv_state_t) (_jsonText : List UInt8) (_len : Nat) :
    yajl_status × ajv_state_t :=
  (yajl_status.yajl_status_client_canceled,
    ajv_set_error hand ajv_error.ajv_e_type_mismatch hand.node
      (info_ptr.own (some "string")))

/-- A feed that is cancelled although the driver has recorded no error: the callback of
the client returned the cancel signal. -/
def yajl_parse_client_cancel (hand : ajv_state_t) (_jsonText : List UInt8) (_len : Nat) :
    yajl_status × ajv_state_t :=
  (yajl_status.yajl_status_client_canceled, hand)

/-- A completion call of the tokenizer that reports success and delivers no event. -/
def yajl_parse_complete_ok (hand : ajv_state_t) : yajl_status × ajv_state_t :=
  (yajl_status.yajl_status_ok, hand)

/-- A formatter of the tokenizer with a fixed diagnostic. -/
def yajl_get_error_fixed (_yajl : Nat) (_verbose : Int) (_jsonText : List UInt8)
    (_len : Nat) : String :=
  "parse error: client cancelled parse via callback return value\n"

/-- A tokenizer whose feed delivers no event on empty input and, on any other input,
runs a callback of the driver that records a type mismatch at the cursor and cancels. -/
def yajl_parse_by_input (hand : ajv_state_t) (jsonText : List UInt8) (jsonTextLength : Nat) :
    yajl_status × ajv_state_t :=
  if jsonTextLength = 0 then yajl_parse_no_event hand jsonText jsonTextLength
  else yajl_parse_type_mismatch hand jsonText jsonTextLength

/-! ## Unfolding lemmas -/

theorem ajv_reset_node_mk (addr : Nat) (parent : Option Nat) (node : orderly_node)
    (regcomp : Option Nat) (sibling child : Option ajv_node) (seen required : Bool) :
    ajv_reset_node (.mk addr parent node regcomp sibling child seen required) =
      .mk addr parent node regcomp (sibling.map ajv_reset_node) (child.map ajv_reset_node)
        false false := by
  cases sibling <;> cases child <;> rfl

theorem ajv_alloc_tree_none_none (pc : String → Option Nat) (alloc : Nat)
    (name : Option String) (t : Nat) (req : Bool) (regex : Option String) (parent : Option Nat) :
    ajv_alloc_tree pc alloc (.mk name t req regex none none) parent =
      (ajv_alloc_node pc alloc (.mk name t req regex none none) parent, alloc + 1) := rfl

theorem ajv_alloc_tree_some_none (pc : String → Option Nat) (alloc : Nat)
    (name : Option String) (t : Nat) (req : Bool) (regex : Option String)
    (s : orderly_node) (parent : Option Nat) :
    ajv_alloc_tree pc alloc (.mk name t req regex (some s) none) parent =
      (.mk alloc parent (.mk name t req regex (some s) none)
          (ajv_alloc_node pc alloc (.mk name t req regex (some s) none) parent).regcomp
          (some (ajv_alloc_tree pc (alloc + 1) s parent).1) none false false,
        (ajv_alloc_tree pc (alloc + 1) s parent).2) := rfl

theorem ajv_alloc_tree_none_some (pc : String → Option Nat) (alloc : Nat)
    (name : Option String) (t : Nat) (req : Bool) (regex : Option String)
    (c : orderly_node) (parent : Option Nat) :
    ajv_alloc_tree pc alloc (.mk name t req regex none (some c)) parent =
      (.mk alloc parent (.mk name t req regex none (some c))
          (ajv_alloc_node pc alloc (.mk name t req regex none (some c)) parent).regcomp
          none (some (ajv_alloc_tree pc (alloc + 1) c (some alloc)).1) false false,
        (ajv_alloc_tree pc (alloc + 1) c (some alloc)).2) := rfl

theorem ajv_alloc_tree_some_some (pc : String → Option Nat) (alloc : Nat)
    (name : Option String) (t : Nat) (req : Bool) (regex : Option String)
    (s c : orderly_node) (parent : Option Nat) :
    ajv_alloc_tree pc alloc (.mk name t req regex (some s) (some c)) parent =
      (.mk alloc parent (.mk name t req regex (some s) (some c))
          (ajv_alloc_node pc alloc (.mk name t req regex (some s) (some c)) parent).regcomp
          (some (ajv_alloc_tree pc (alloc + 1) s parent).1)
          (some (ajv_alloc_tree pc (ajv_alloc_tree pc (alloc + 1) s parent).2 c (some alloc)).1)
          false false,
        (ajv_alloc_tree pc (ajv_alloc_tree pc (alloc + 1) s parent).2 c (some alloc)).2) := rfl

theorem mirrors_mk (addr : Nat) (parent : Option Nat) (node : orderly_node)
    (regcomp : Option Nat) (sibling child : Option ajv_node) (seen required : Bool)
    (n : orderly_node) :
    mirrors (.mk addr parent node regcomp sibling child seen required) n ↔
      (node = n ∧
        (match sibling with
         | some sa => ∃ sn, n.sibling = some sn ∧ mirrors sa sn
         | none => n.sibling = none) ∧
        (match child with
         | some ca => ∃ cn, n.child = some cn ∧ mirrors ca cn
         | none => n.child = none)) := by
  cases sibling <;> cases child <;> rfl

theorem ajv_alloc_tree_mirrors (pc : String → Option Nat) :
    ∀ (n : orderly_node) (alloc : Nat) (parent : Option Nat),
      mirrors (ajv_alloc_tree pc alloc n parent).1 n
  | .mk name t req regex none none, alloc, parent => by
    rw [ajv_alloc_tree_none_none, ajv_alloc_node, mirrors_mk]
    exact ⟨rfl, rfl, rfl⟩
  | .mk name t req regex (some s) none, alloc, parent => by
    rw [ajv_alloc_tree_some_none, mirrors_mk]
    exact ⟨rfl, ⟨s, rfl, ajv_alloc_tree_mirrors pc s _ _⟩, rfl⟩
  | .mk name t req regex none (some c), alloc, parent => by
    rw [ajv_alloc_tree_none_some, mirrors_mk]
    exact ⟨rfl, rfl, ⟨c, rfl, ajv_alloc_tree_mirrors pc c _ _⟩⟩
  | .mk name t req regex (some s) (some c), alloc, parent => by
    rw [ajv_alloc_tree_some_some, mirrors_mk]
    exact ⟨rfl, ⟨s, rfl, ajv_alloc_tree_mirrors pc s _ _⟩,
      ⟨c, rfl, ajv_alloc_tree_mirrors pc c _ _⟩⟩

theorem ajv_alloc_node_recursive_none_none (alloc : Nat)
    (name : Option String) (t : Nat) (req : Bool) (regex : Option String) (parent : Option Nat) :
    ajv_alloc_node_recursive alloc (.mk name t req regex none none) parent =
      (.mk alloc parent (.mk name t req regex none none) none none none false false,
        alloc + 1) := rfl

theorem ajv_alloc_node_recursive_some_none (alloc : Nat)
    (name : Option String) (t : Nat) (req : Bool) (regex : Option String)
    (s : orderly_node) (parent : Option Nat) :
    ajv_alloc_node_recursive alloc (.mk name t req regex (some s) none) parent =
      (.mk alloc parent (.mk name t req regex (some s) none) none
          (some (ajv_alloc_node_recursive (alloc + 1) s parent).1) none false false,
        (ajv_alloc_node_recursive (alloc + 1) s parent).2) := rfl

theorem ajv_alloc_node_recursive_none_some (alloc : Nat)
    (name : Option String) (t : Nat) (req : Bool) (regex : Option String)
    (c : orderly_node) (parent : Option Nat) :
    ajv_alloc_node_recursive alloc (.mk name t req regex none (some c)) parent =
      (.mk alloc parent (.mk name t req regex none (some c)) none
          none (some (ajv_alloc_node_recursive (alloc + 1) c (some alloc)).1) false false,
        (ajv_alloc_node_recursive (alloc + 1) c (some alloc)).2) := rfl

theorem ajv_alloc_node_recursive_some_some (alloc : Nat)
    (name : Option String) (t : Nat) (req : Bool) (regex : Option String)
    (s c : orderly_node) (parent : Option Nat) :
    ajv_alloc_node_recursive alloc (.mk name t req regex (some s) (some c)) parent =
      (.mk alloc parent (.mk name t req regex (some s) (some c)) none
          (some (ajv_alloc_node_recursive (alloc + 1) s parent).1)
          (some (ajv_alloc_node_recursive
            (ajv_alloc_node_recursive (alloc + 1) s parent).2 c (some alloc)).1)
          false false,
        (ajv_alloc_node_recursive
          (ajv_alloc_node_recursive (alloc + 1) s parent).2 c (some alloc)).2) := rfl

theorem ajv_alloc_node_recursive_mirrors :
    ∀ (n : orderly_node) (alloc : Nat) (parent : Option Nat),
      mirrors (ajv_alloc_node_recursive alloc n parent).1 n
  | .mk name t req regex none none, alloc, parent => by
    rw [ajv_alloc_node_recursive_none_none, mirrors_mk]
    exact ⟨rfl, rfl, rfl⟩
  | .mk name t req regex (some s) none, alloc, parent => by
    rw [ajv_alloc_node_recursive_some_none, mirrors_mk]
    exact ⟨rfl, ⟨s, rfl, ajv_alloc_node_recursive_mirrors s _ _⟩, rfl⟩
  | .mk name t req regex none (some c), alloc, parent => by
    rw [ajv_alloc_node_recursive_none_some, mirrors_mk]
    exact ⟨rfl, rfl, ⟨c, rfl, ajv_alloc_node_recursive_mirrors c _ _⟩⟩
  | .mk name t req regex (some s) (some c), alloc, parent => by
    rw [ajv_alloc_node_recursive_some_some, mirrors_mk]
    exact ⟨rfl, ⟨s, rfl, ajv_alloc_node_recursive_mirrors s _ _⟩,
      ⟨c, rfl, ajv_alloc_node_recursive_mirrors c _ _⟩⟩

theorem ajv_reset_node_flags :
    ∀ (t n : ajv_node), reachable (ajv_reset_node t) n → n.seen = false ∧ n.required = false
  | .mk addr parent node regcomp sibling child seen required, n, h => by
    rw [ajv_reset_node_mk] at h
    cases h with
    | here => exact ⟨rfl, rfl⟩
    | through_sibling hs hr =>
      cases sibling with
      | none => simp [ajv_node.sibling] at hs
      | some s =>
        simp only [ajv_node.sibling, Option.map, Option.some.injEq] at hs
        subst hs
        exact ajv_reset_node_flags s n hr
    | through_child hc hr =>
      cases child with
      | none => simp [ajv_node.child] at hc
      | some c =>
        simp only [ajv_node.child, Option.map, Option.some.injEq] at hc
        subst hc
        exact ajv_reset_node_flags c n hr

/-! ## The message of `ajv_get_error` on the verbose path -/

theorem c_int_of_range (x : Int) (h0 : 0 ≤ x) (h1 : x < 2 ^ 31) : c_int x = x := by
  unfold c_int
  have h2 : (x + 2 ^ 31) % 2 ^ 32 = x + 2 ^ 31 :=
    Int.emod_eq_of_lt (by omega) (by omega)
  omega

theorem ajv_error_to_string_length (e : ajv_error) : (ajv_error_to_string e).length ≤ 39 := by
  cases e with
  | unrecognized code =>
    show ("Internal error: unrecognized error code").length ≤ 39
    decide
  | _ => decide

theorem ajv_get_error_ret_eq (e : ajv_error_t) (yajl_err : String) (name : Option String) :
    ajv_get_error_ret e (some yajl_err) name =
      "VALIDATION ERROR:" ++ name_context name ++ ajv_error_to_string e.code ++ "\n" ++
        yajl_err := by
  cases name with
  | none =>
    simp only [ajv_get_error_ret, name_context, String.append_assoc, String.empty_append]
  | some nm =>
    simp only [ajv_get_error_ret, name_context, String.append_assoc, String.empty_append]

theorem ajv_get_error_ret_length (e : ajv_error_t) (yajl_err : String) (name : Option String) :
    (ajv_get_error_ret e (some yajl_err) name).length ≤
      79 + name_length name + yajl_err.length := by
  have hd := ajv_error_to_string_length e.code
  have h1 : ("VALIDATION ERROR:").length = 17 := by decide
  have h2 : (" value for map key '").length = 20 := by decide
  have h3 : ("':").length = 2 := by decide
  have h4 : ("\n").length = 1 := by decide
  have h5 : ("").length = 0 := by decide
  cases name with
  | none =>
    simp only [ajv_get_error_ret, name_length, String.length_append, h1, h4, h5]
    omega
  | some nm =>
    simp only [ajv_get_error_ret, name_length, String.length_append, h1, h2, h3, h4, h5]
    omega

theorem ajv_get_error_max_length_eq (e : ajv_error_t) (y : Nat) (name : Option String)
    (hsmall : detail_length e + y + name_length name < 2 ^ 30) :
    ajv_get_error_max_length e (c_int y) name =
      ((1024 + detail_length e + y + name_length name : Nat) : Int) := by
  have hd : (match e.extra_info with
             | some i => (i.length : Int)
             | none => 1) = (detail_length e : Int) := by
    unfold detail_length
    cases e.extra_info <;> rfl
  unfold ajv_get_error_max_length ERROR_BASE_LENGTH
  simp only [hd]
  cases name with
  | none =>
    simp only [name_length] at hsmall ⊢
    rw [c_int_of_range y (by omega) (by omega),
      c_int_of_range (1024 + (detail_length e : Int)) (by omega) (by omega),
      c_int_of_range _ (by omega) (by omega)]
    push_cast
    ring
  | some nm =>
    simp only [name_length] at hsmall ⊢
    rw [c_int_of_range y (by omega) (by omega),
      c_int_of_range (1024 + (detail_length e : Int)) (by omega) (by omega),
      c_int_of_range (1024 + (detail_length e : Int) + y) (by omega) (by omega),
      c_int_of_range _ (by omega) (by omega)]
    push_cast
    ring

/-- On the verbose path (`verbose == 1`) the locals are assigned and the buffer is large
enough: when the offending node resolves to `name` and the lengths are far from the
limit of `int`, the message is the preamble, the map-key context, the description of the
kind, a newline and the tokenizer's diagnostic. -/
theorem ajv_get_error_verbose
    (yajl_get_error : Nat → Int → List UInt8 → Nat → String)
    (yajl_err_init : Option String) (yajl_length_init : Int)
    (h : ajv_state_t) (jsonText : List UInt8) (jsonTextLength : Nat)
    (name : Option String)
    (herr : h.error.code ≠ ajv_error.ajv_e_no_error)
    (hname : h.error_name = some name)
    (hsmall : detail_length h.error +
        (yajl_get_error h.yajl 1 jsonText jsonTextLength).length + name_length name <
          2 ^ 30) :
    ajv_get_error yajl_get_error yajl_err_init yajl_length_init h 1 jsonText jsonTextLength =
      some ("VALIDATION ERROR:" ++ name_context name ++ ajv_error_to_string h.error.code ++
        "\n" ++ yajl_get_error h.yajl 1 jsonText jsonTextLength) := by
  have hlen := ajv_get_error_ret_length h.error
    (yajl_get_error h.yajl 1 jsonText jsonTextLength) name
  have hmax := ajv_get_error_max_length_eq h.error
    (yajl_get_error h.yajl 1 jsonText jsonTextLength).length name hsmall
  have hfit : ((ajv_get_error_ret h.error
        (some (yajl_get_error h.yajl 1 jsonText jsonTextLength)) name).length : Int) + 1 ≤
      c_unsigned (c_int (ajv_get_error_max_length h.error
        (c_int (yajl_get_error h.yajl 1 jsonText jsonTextLength).length) name + 1)) := by
    rw [hmax, c_int_of_range _ (by omega) (by omega)]
    unfold c_unsigned
    rw [Int.emod_eq_of_lt (by omega) (by omega)]
    omega
  unfold ajv_get_error
  simp only [herr, if_false, hname, ajv_get_error_locals, if_true, hfit]
  rw [ajv_get_error_ret_eq]

/-! ## Teardown: the releases of `ajv_free_node` -/

theorem ajv_free_node_releases_mk (addr : Nat) (parent : Option Nat) (node : orderly_node)
    (regcomp : Option Nat) (sibling child : Option ajv_node) (seen required : Bool) :
    ajv_free_node_releases (.mk addr parent node regcomp sibling child seen required) =
      (ajv_free_node (some sibling)).2 ++ (ajv_free_node (some child)).2 ++
        (match regcomp with
         | some r => [release.pcre_free r]
         | none => []) ++
        [release.OR_FREE addr] := by
  cases sibling <;> cases child <;> rfl

theorem ajv_free_node_releases_eq (m : ajv_node) :
    ajv_free_node_releases m =
      (ajv_free_node (some m.sibling)).2 ++ (ajv_free_node (some m.child)).2 ++
        (match m.regcomp with
         | some r => [release.pcre_free r]
         | none => []) ++
        [release.OR_FREE m.addr] := by
  cases m with
  | mk addr parent node regcomp sibling child seen required =>
    exact ajv_free_node_releases_mk addr parent node regcomp sibling child seen required

theorem ajv_node_nodes_mk (addr : Nat) (parent : Option Nat) (node : orderly_node)
    (regcomp : Option Nat) (sibling child : Option ajv_node) (seen required : Bool) :
    ajv_node.nodes (.mk addr parent node regcomp sibling child seen required) =
      .mk addr parent node regcomp sibling child seen required ::
        ((match sibling with
          | some s => ajv_node.nodes s
          | none => []) ++
         (match child with
          | some c => ajv_node.nodes c
          | none => [])) := by
  cases sibling <;> cases child <;> rfl

theorem ajv_node_self_mem_nodes (t : ajv_node) : t ∈ t.nodes := by
  cases t with
  | mk addr parent node regcomp sibling child seen required =>
    rw [ajv_node_nodes_mk]
    exact List.mem_cons_self _ _

theorem ajv_node_nodes_sibling {t s : ajv_node} (hs : t.sibling = some s) (m : ajv_node)
    (hm : m ∈ s.nodes) : m ∈ t.nodes := by
  cases t with
  | mk addr parent node regcomp sibling child seen required =>
    simp only [ajv_node.sibling] at hs
    subst hs
    rw [ajv_node_nodes_mk]
    exact List.mem_cons_of_mem _ (List.mem_append_left _ hm)

theorem ajv_node_nodes_child {t c : ajv_node} (hc : t.child = some c) (m : ajv_node)
    (hm : m ∈ c.nodes) : m ∈ t.nodes := by
  cases t with
  | mk addr parent node regcomp sibling child seen required =>
    simp only [ajv_node.child] at hc
    subst hc
    rw [ajv_node_nodes_mk]
    exact List.mem_cons_of_mem _ (List.mem_append_right _ hm)

theorem reachable_mem_nodes {t m : ajv_node} (h : reachable t m) : m ∈ t.nodes := by
  induction h with
  | here t => exact ajv_node_self_mem_nodes t
  | through_sibling hs _ ih => exact ajv_node_nodes_sibling hs _ ih
  | through_child hc _ ih => exact ajv_node_nodes_child hc _ ih

theorem mem_nodes_reachable : ∀ (t m : ajv_node), m ∈ t.nodes → reachable t m
  | .mk addr parent node regcomp sibling child seen required, m, h => by
    rw [ajv_node_nodes_mk] at h
    rcases List.mem_cons.mp h with h | h
    · subst h
      exact reachable.here _
    · rcases List.mem_append.mp h with h | h
      · cases sibling with
        | none => simp at h
        | some s => exact reachable.through_sibling rfl (mem_nodes_reachable s m h)
      · cases child with
        | none => simp at h
        | some c => exact reachable.through_child rfl (mem_nodes_reachable c m h)

theorem ajv_free_node_releases_infix {t m : ajv_node} (h : reachable t m) :
    ajv_free_node_releases m <:+: ajv_free_node_releases t := by
  induction h with
  | here t => exact List.infix_refl _
  | @through_sibling t s n hs _ ih =>
    refine List.IsInfix.trans ih ?_
    cases t with
    | mk addr parent node regcomp sibling child seen required =>
      simp only [ajv_node.sibling] at hs
      subst hs
      rw [ajv_free_node_releases_mk]
      exact ⟨[], (ajv_free_node (some child)).2 ++
        (match regcomp with
         | some r => [release.pcre_free r]
         | none => []) ++ [release.OR_FREE addr], by simp [ajv_free_node]⟩
  | @through_child t c n hc _ ih =>
    refine List.IsInfix.trans ih ?_
    cases t with
    | mk addr parent node regcomp sibling child seen required =>
      simp only [ajv_node.child] at hc
      subst hc
      rw [ajv_free_node_releases_mk]
      exact ⟨(ajv_free_node (some sibling)).2,
        (match regcomp with
         | some r => [release.pcre_free r]
         | none => []) ++ [release.OR_FREE addr], by simp [ajv_free_node]⟩

theorem ajv_free_node_releases_nodes : ∀ t : ajv_node,
    ((ajv_free_node_releases t).filterMap release.freed_node).Perm
      (t.nodes.map ajv_node.addr)
  | .mk addr parent node regcomp sibling child seen required => by
    have hs : ((ajv_free_node (some sibling)).2.filterMap release.freed_node).Perm
        ((match sibling with
          | some s => ajv_node.nodes s
          | none => []).map ajv_node.addr) := by
      cases sibling with
      | none => exact List.Perm.refl _
      | some s => exact ajv_free_node_releases_nodes s
    have hc : ((ajv_free_node (some child)).2.filterMap release.freed_node).Perm
        ((match child with
          | some c => ajv_node.nodes c
          | none => []).map ajv_node.addr) := by
      cases child with
      | none => exact List.Perm.refl _
      | some c => exact ajv_free_node_releases_nodes c
    have hm : (match regcomp with
               | some r => [release.pcre_free r]
               | none => []).filterMap release.freed_node = [] := by
      cases regcomp <;> rfl
    rw [ajv_free_node_releases_mk, ajv_node_nodes_mk]
    simp only [List.filterMap_append, hm, List.append_nil, List.map_cons, List.map_append]
    have h1 : List.filterMap release.freed_node [release.OR_FREE addr] = [addr] := rfl
    rw [h1]
    exact (List.perm_append_singleton _ _).trans
      (List.Perm.cons _ (List.Perm.append hs hc))

theorem ajv_free_node_releases_origin : ∀ (t : ajv_node) (r : release),
    r ∈ ajv_free_node_releases t →
      ∃ m, m ∈ t.nodes ∧ (r = release.OR_FREE m.addr ∨
        ∃ p, m.regcomp = some p ∧ r = release.pcre_free p)
  | .mk addr parent node regcomp sibling child seen required, r, h => by
    rw [ajv_free_node_releases_mk] at h
    rw [ajv_node_nodes_mk]
    simp only [List.mem_append, List.mem_singleton] at h
    rcases h with ((h | h) | h) | h
    · cases sibling with
      | none => simp [ajv_free_node] at h
      | some s =>
        obtain ⟨m, hm, hr⟩ := ajv_free_node_releases_origin s r h
        exact ⟨m, List.mem_cons_of_mem _ (List.mem_append_left _ hm), hr⟩
    · cases child with
      | none => simp [ajv_free_node] at h
      | some c =>
        obtain ⟨m, hm, hr⟩ := ajv_free_node_releases_origin c r h
        exact ⟨m, List.mem_cons_of_mem _ (List.mem_append_right _ hm), hr⟩
    · cases regcomp with
      | none => simp at h
      | some p =>
        simp only [List.mem_singleton] at h
        exact ⟨_, List.mem_cons_self _ _, Or.inr ⟨p, rfl, h⟩⟩
    · exact ⟨_, List.mem_cons_self _ _, Or.inl h⟩

/-! ## Construction: matchers, flags and parents -/

theorem without_matchers_mk (addr : Nat) (parent : Option Nat) (node : orderly_node)
    (regcomp : Option Nat) (sibling child : Option ajv_node) (seen required : Bool) :
    ajv_node.without_matchers (.mk addr parent node regcomp sibling child seen required) =
      .mk addr parent node none (sibling.map ajv_node.without_matchers)
        (child.map ajv_node.without_matchers) seen required := by
  cases sibling <;> cases child <;> rfl

theorem ajv_alloc_tree_compiler_independent (pc pc' : String → Option Nat) :
    ∀ (n : orderly_node) (alloc : Nat) (parent : Option Nat),
      (ajv_alloc_tree pc alloc n parent).2 = (ajv_alloc_tree pc' alloc n parent).2 ∧
        (ajv_alloc_tree pc alloc n parent).1.without_matchers =
          (ajv_alloc_tree pc' alloc n parent).1.without_matchers
  | .mk name t req regex none none, alloc, parent => by
    simp only [ajv_alloc_tree_none_none, ajv_alloc_node, without_matchers_mk, Option.map,
      and_self]
  | .mk name t req regex (some s) none, alloc, parent => by
    have hs := ajv_alloc_tree_compiler_independent pc pc' s (alloc + 1) parent
    simp only [ajv_alloc_tree_some_none, without_matchers_mk, Option.map, hs.1, hs.2,
      and_self]
  | .mk name t req regex none (some c), alloc, parent => by
    have hc := ajv_alloc_tree_compiler_independent pc pc' c (alloc + 1) (some alloc)
    simp only [ajv_alloc_tree_none_some, without_matchers_mk, Option.map, hc.1, hc.2,
      and_self]
  | .mk name t req regex (some s) (some c), alloc, parent => by
    have hs := ajv_alloc_tree_compiler_independent pc pc' s (alloc + 1) parent
    have hc := ajv_alloc_tree_compiler_independent pc pc' c
      (ajv_alloc_tree pc' (alloc + 1) s parent).2 (some alloc)
    simp only [ajv_alloc_tree_some_some, without_matchers_mk, Option.map, hs.1, hs.2,
      hc.1, hc.2, and_self]

theorem ajv_alloc_tree_regcomp (pc : String → Option Nat) :
    ∀ (n : orderly_node) (alloc : Nat) (parent : Option Nat) (m : ajv_node),
      reachable (ajv_alloc_tree pc alloc n parent).1 m →
        m.regcomp = (match m.node.regex with
                     | some r => pc r
                     | none => none)
  | .mk name t req regex none none, alloc, parent, m, h => by
    rw [ajv_alloc_tree_none_none, ajv_alloc_node] at h
    cases h with
    | here => rfl
    | through_sibling hs _ => simp [ajv_node.sibling] at hs
    | through_child hc _ => simp [ajv_node.child] at hc
  | .mk name t req regex (some s) none, alloc, parent, m, h => by
    rw [ajv_alloc_tree_some_none] at h
    cases h with
    | here => rfl
    | through_sibling hs hr =>
      simp only [ajv_node.sibling, Option.some.injEq] at hs
      subst hs
      exact ajv_alloc_tree_regcomp pc s _ _ m hr
    | through_child hc _ => simp [ajv_node.child] at hc
  | .mk name t req regex none (some c), alloc, parent, m, h => by
    rw [ajv_alloc_tree_none_some] at h
    cases h with
    | here => rfl
    | through_sibling hs _ => simp [ajv_node.sibling] at hs
    | through_child hc hr =>
      simp only [ajv_node.child, Option.some.injEq] at hc
      subst hc
      exact ajv_alloc_tree_regcomp pc c _ _ m hr
  | .mk name t req regex (some s) (some c), alloc, parent, m, h => by
    rw [ajv_alloc_tree_some_some] at h
    cases h with
    | here => rfl
    | through_sibling hs hr =>
      simp only [ajv_node.sibling, Option.some.injEq] at hs
      subst hs
      exact ajv_alloc_tree_regcomp pc s _ _ m hr
    | through_child hc hr =>
      simp only [ajv_node.child, Option.some.injEq] at hc
      subst hc
      exact ajv_alloc_tree_regcomp pc c _ _ m hr

theorem ajv_reset_node_idempotent : ∀ t : ajv_node,
    ajv_reset_node (ajv_reset_node t) = ajv_reset_node t
  | .mk addr parent node regcomp none none seen required => by
    simp only [ajv_reset_node_mk, Option.map]
  | .mk addr parent node regcomp (some s) none seen required => by
    simp only [ajv_reset_node_mk, Option.map, ajv_reset_node_idempotent s]
  | .mk addr parent node regcomp none (some c) seen required => by
    simp only [ajv_reset_node_mk, Option.map, ajv_reset_node_idempotent c]
  | .mk addr parent node regcomp (some s) (some c) seen required => by
    simp only [ajv_reset_node_mk, Option.map, ajv_reset_node_idempotent s,
      ajv_reset_node_idempotent c]

theorem ajv_reset_node_alloc_tree (pc : String → Option Nat) :
    ∀ (n : orderly_node) (alloc : Nat) (parent : Option Nat),
      ajv_reset_node (ajv_alloc_tree pc alloc n parent).1 =
        (ajv_alloc_tree pc alloc n parent).1
  | .mk name t req regex none none, alloc, parent => by
    simp only [ajv_alloc_tree_none_none, ajv_alloc_node, ajv_reset_node_mk, Option.map]
  | .mk name t req regex (some s) none, alloc, parent => by
    simp only [ajv_alloc_tree_some_none, ajv_reset_node_mk, Option.map,
      ajv_reset_node_alloc_tree pc s]
  | .mk name t req regex none (some c), alloc, parent => by
    simp only [ajv_alloc_tree_none_some, ajv_reset_node_mk, Option.map,
      ajv_reset_node_alloc_tree pc c]
  | .mk name t req regex (some s) (some c), alloc, parent => by
    simp only [ajv_alloc_tree_some_some, ajv_reset_node_mk, Option.map,
      ajv_reset_node_alloc_tree pc s, ajv_reset_node_alloc_tree pc c]

theorem same_except_flags_mk (addr : Nat) (parent : Option Nat) (node : orderly_node)
    (regcomp : Option Nat) (sibling child : Option ajv_node) (seen required : Bool)
    (b : ajv_node) :
    same_except_flags (.mk addr parent node regcomp sibling child seen required) b ↔
      (b.addr = addr ∧ b.parent = parent ∧ b.node = node ∧ b.regcomp = regcomp ∧
        (match sibling with
         | some s => ∃ sb, b.sibling = some sb ∧ same_except_flags s sb
         | none => b.sibling = none) ∧
        (match child with
         | some c => ∃ cb, b.child = some cb ∧ same_except_flags c cb
         | none => b.child = none)) := by
  cases sibling <;> cases child <;> rfl

theorem ajv_reset_node_same_except_flags : ∀ t : ajv_node,
    same_except_flags t (ajv_reset_node t)
  | .mk addr parent node regcomp none none seen required => by
    rw [ajv_reset_node_mk, same_except_flags_mk]
    exact ⟨rfl, rfl, rfl, rfl, rfl, rfl⟩
  | .mk addr parent node regcomp (some s) none seen required => by
    rw [ajv_reset_node_mk, same_except_flags_mk]
    exact ⟨rfl, rfl, rfl, rfl, ⟨_, rfl, ajv_reset_node_same_except_flags s⟩, rfl⟩
  | .mk addr parent node regcomp none (some c) seen required => by
    rw [ajv_reset_node_mk, same_except_flags_mk]
    exact ⟨rfl, rfl, rfl, rfl, rfl, ⟨_, rfl, ajv_reset_node_same_except_flags c⟩⟩
  | .mk addr parent node regcomp (some s) (some c) seen required => by
    rw [ajv_reset_node_mk, same_except_flags_mk]
    exact ⟨rfl, rfl, rfl, rfl, ⟨_, rfl, ajv_reset_node_same_except_flags s⟩,
      ⟨_, rfl, ajv_reset_node_same_except_flags c⟩⟩

theorem parents_linked_mk (addr : Nat) (parent : Option Nat) (node : orderly_node)
    (regcomp : Option Nat) (sibling child : Option ajv_node) (seen required : Bool)
    (p : Option Nat) :
    parents_linked (.mk addr parent node regcomp sibling child seen required) p ↔
      (parent = p ∧
        (match sibling with
         | some s => parents_linked s p
         | none => True) ∧
        (match child with
         | some c => parents_linked c (some addr)
         | none => True)) := by
  cases sibling <;> cases child <;> rfl

theorem parents_linked_parent {t : ajv_node} {p : Option Nat} (h : parents_linked t p) :
    t.parent = p := by
  cases t with
  | mk addr parent node regcomp sibling child seen required =>
    exact ((parents_linked_mk _ _ _ _ _ _ _ _ _).mp h).1

theorem parents_linked_sibling {t s : ajv_node} {p : Option Nat} (h : parents_linked t p)
    (hs : t.sibling = some s) : parents_linked s p := by
  cases t with
  | mk addr parent node regcomp sibling child seen required =>
    simp only [ajv_node.sibling] at hs
    subst hs
    exact ((parents_linked_mk _ _ _ _ _ _ _ _ _).mp h).2.1

theorem parents_linked_child {t c : ajv_node} {p : Option Nat} (h : parents_linked t p)
    (hc : t.child = some c) : parents_linked c (some t.addr) := by
  cases t with
  | mk addr parent node regcomp sibling child seen required =>
    simp only [ajv_node.child] at hc
    subst hc
    exact ((parents_linked_mk _ _ _ _ _ _ _ _ _).mp h).2.2

theorem parents_linked_chain {t n : ajv_node} (hc : on_sibling_chain t n) :
    ∀ p : Option Nat, parents_linked t p → parents_linked n p := by
  induction hc with
  | first t => exact fun _ h => h
  | next hs _ ih => exact fun p h => ih p (parents_linked_sibling h hs)

theorem parents_linked_reachable {t m : ajv_node} (hr : reachable t m) :
    ∀ p : Option Nat, parents_linked t p → ∃ q, parents_linked m q := by
  induction hr with
  | here t => exact fun p h => ⟨p, h⟩
  | through_sibling hs _ ih => exact fun p h => ih p (parents_linked_sibling h hs)
  | through_child hc _ ih => exact fun p h => ih _ (parents_linked_child h hc)

theorem ajv_alloc_tree_parents_linked (pc : String → Option Nat) :
    ∀ (n : orderly_node) (alloc : Nat) (parent : Option Nat),
      parents_linked (ajv_alloc_tree pc alloc n parent).1 parent
  | .mk name t req regex none none, alloc, parent => by
    rw [ajv_alloc_tree_none_none, ajv_alloc_node, parents_linked_mk]
    exact ⟨rfl, trivial, trivial⟩
  | .mk name t req regex (some s) none, alloc, parent => by
    rw [ajv_alloc_tree_some_none, parents_linked_mk]
    exact ⟨rfl, ajv_alloc_tree_parents_linked pc s _ _, trivial⟩
  | .mk name t req regex none (some c), alloc, parent => by
    rw [ajv_alloc_tree_none_some, parents_linked_mk]
    exact ⟨rfl, trivial, ajv_alloc_tree_parents_linked pc c _ _⟩
  | .mk name t req regex (some s) (some c), alloc, parent => by
    rw [ajv_alloc_tree_some_some, parents_linked_mk]
    exact ⟨rfl, ajv_alloc_tree_parents_linked pc s _ _,
      ajv_alloc_tree_parents_linked pc c _ _⟩

theorem ajv_alloc_node_recursive_parents_linked :
    ∀ (n : orderly_node) (alloc : Nat) (parent : Option Nat),
      parents_linked (ajv_alloc_node_recursive alloc n parent).1 parent
  | .mk name t req regex none none, alloc, parent => by
    rw [ajv_alloc_node_recursive_none_none, parents_linked_mk]
    exact ⟨rfl, trivial, trivial⟩
  | .mk name t req regex (some s) none, alloc, parent => by
    rw [ajv_alloc_node_recursive_some_none, parents_linked_mk]
    exact ⟨rfl, ajv_alloc_node_recursive_parents_linked s _ _, trivial⟩
  | .mk name t req regex none (some c), alloc, parent => by
    rw [ajv_alloc_node_recursive_none_some, parents_linked_mk]
    exact ⟨rfl, trivial, ajv_alloc_node_recursive_parents_linked c _ _⟩
  | .mk name t req regex (some s) (some c), alloc, parent => by
    rw [ajv_alloc_node_recursive_some_some, parents_linked_mk]
    exact ⟨rfl, ajv_alloc_node_recursive_parents_linked s _ _,
      ajv_alloc_node_recursive_parents_linked c _ _⟩

theorem parents_linked_spec {root : ajv_node} {p : Option Nat} (h : parents_linked root p) :
    (∀ n : ajv_node, on_sibling_chain root n → n.parent = p) ∧
      (∀ m c n : ajv_node, reachable root m → m.child = some c → on_sibling_chain c n →
        n.parent = some m.addr) ∧
      (∀ m n : ajv_node, reachable root m → on_sibling_chain m n → n.parent = m.parent) := by
  refine ⟨fun n hn => parents_linked_parent (parents_linked_chain hn p h),
    fun m c n hm hc hn => ?_, fun m n hm hn => ?_⟩
  · obtain ⟨q, hq⟩ := parents_linked_reachable hm p h
    exact parents_linked_parent (parents_linked_chain hn _ (parents_linked_child hq hc))
  · obtain ⟨q, hq⟩ := parents_linked_reachable hm p h
    rw [parents_linked_parent hq]
    exact parents_linked_parent (parents_linked_chain hn q hq)

/-! ## The assertion of `ajv_parse_and_validate` -/

theorem ajv_parse_and_validate_none_schema
    (yajl_parse : ajv_state_t → List UInt8 → Nat → yajl_status × ajv_state_t)
    (hrec : records_only_when_cancelling yajl_parse)
    (h : ajv_state_t) (jsonText : List UInt8) (jsonTextLength : Nat)
    (hclear : h.error.code = ajv_error.ajv_e_no_error) :
    ajv_parse_and_validate yajl_parse h jsonText jsonTextLength none ≠ none := by
  unfold ajv_parse_and_validate ajv_parse_and_validate_feed
  by_cases hs : (yajl_parse h jsonText jsonTextLength).1 =
      yajl_status.yajl_status_client_canceled
  · by_cases he : (yajl_parse h jsonText jsonTextLength).2.error.code =
        ajv_error.ajv_e_no_error
    · simp [he]
    · simp [he, hs]
  · have he := hrec h jsonText jsonTextLength hs
    simp [he, hclear]

/-- When the callbacks record an error only when they cancel, the assertion holds on
every call that binds a schema and on every call on a handle whose slot is clear. -/
theorem ajv_parse_and_validate_assert_holds
    (yajl_parse : ajv_state_t → List UInt8 → Nat → yajl_status × ajv_state_t)
    (hrec : records_only_when_cancelling yajl_parse)
    (h : ajv_state_t) (jsonText : List UInt8) (jsonTextLength : Nat)
    (schema : Option ajv_schema_t)
    (hclear : schema ≠ none ∨ h.error.code = ajv_error.ajv_e_no_error) :
    ajv_parse_and_validate yajl_parse h jsonText jsonTextLength schema ≠ none := by
  cases schema with
  | some sch =>
    exact ajv_parse_and_validate_none_schema yajl_parse hrec (ajv_bind_schema h sch)
      jsonText jsonTextLength rfl
  | none =>
    rcases hclear with hc | hc
    · exact absurd rfl hc
    · exact ajv_parse_and_validate_none_schema yajl_parse hrec h jsonText jsonTextLength hc

/-! ## Construction: the addresses of the nodes -/

theorem fresh_addresses (lo mid hi : Nat) (S C : List Nat)
    (h1 : lo + 1 ≤ mid) (h2 : mid ≤ hi)
    (hS : ∀ x ∈ S, lo + 1 ≤ x ∧ x < mid) (hC : ∀ x ∈ C, mid ≤ x ∧ x < hi)
    (nS : S.Nodup) (nC : C.Nodup) :
    lo < hi ∧ (∀ x ∈ lo :: (S ++ C), lo ≤ x ∧ x < hi) ∧ (lo :: (S ++ C)).Nodup := by
  refine ⟨by omega, fun x hx => ?_, ?_⟩
  · rcases List.mem_cons.mp hx with hx | hx
    · omega
    · rcases List.mem_append.mp hx with hx | hx
      · have := hS x hx
        omega
      · have := hC x hx
        omega
  · refine List.nodup_cons.mpr ⟨fun hx => ?_, List.Nodup.append nS nC fun x hxS hxC => ?_⟩
    · rcases List.mem_append.mp hx with hx | hx
      · have := hS lo hx
        omega
      · have := hC lo hx
        omega
    · have := hS x hxS
      have := hC x hxC
      omega

theorem ajv_alloc_tree_addresses (pc : String → Option Nat) :
    ∀ (n : orderly_node) (alloc : Nat) (parent : Option Nat),
      alloc < (ajv_alloc_tree pc alloc n parent).2 ∧
        (∀ x ∈ (ajv_alloc_tree pc alloc n parent).1.nodes.map ajv_node.addr,
          alloc ≤ x ∧ x < (ajv_alloc_tree pc alloc n parent).2) ∧
        ((ajv_alloc_tree pc alloc n parent).1.nodes.map ajv_node.addr).Nodup
  | .mk name t req regex none none, alloc, parent => by
    rw [ajv_alloc_tree_none_none, ajv_alloc_node, ajv_node_nodes_mk]
    exact fresh_addresses alloc (alloc + 1) (alloc + 1) [] [] (le_refl _) (le_refl _)
      (fun _ h => absurd h (List.not_mem_nil _)) (fun _ h => absurd h (List.not_mem_nil _))
      List.nodup_nil List.nodup_nil
  | .mk name t req regex (some s) none, alloc, parent => by
    have hs := ajv_alloc_tree_addresses pc s (alloc + 1) parent
    rw [ajv_alloc_tree_some_none, ajv_node_nodes_mk]
    simp only [List.map_cons, List.map_append, List.map_nil, ajv_node.addr]
    exact fresh_addresses alloc _ _ _ [] (le_of_lt hs.1) (le_refl _) hs.2.1
      (fun _ h => absurd h (List.not_mem_nil _)) hs.2.2 List.nodup_nil
  | .mk name t req regex none (some c), alloc, parent => by
    have hc := ajv_alloc_tree_addresses pc c (alloc + 1) (some alloc)
    rw [ajv_alloc_tree_none_some, ajv_node_nodes_mk]
    simp only [List.map_cons, List.map_append, List.map_nil, ajv_node.addr]
    exact fresh_addresses alloc (alloc + 1) _ [] _ (le_refl _) (le_of_lt hc.1)
      (fun _ h => absurd h (List.not_mem_nil _)) hc.2.1 List.nodup_nil hc.2.2
  | .mk name t req regex (some s) (some c), alloc, parent => by
    have hs := ajv_alloc_tree_addresses pc s (alloc + 1) parent
    have hc := ajv_alloc_tree_addresses pc c (ajv_alloc_tree pc (alloc + 1) s parent).2
      (some alloc)
    rw [ajv_alloc_tree_some_some, ajv_node_nodes_mk]
    simp only [List.map_cons, List.map_append, ajv_node.addr]
    exact fresh_addresses alloc _ _ _ _ (le_of_lt hs.1) (le_of_lt hc.1) hs.2.1 hc.2.1
      hs.2.2 hc.2.2

theorem ajv_alloc_node_recursive_addresses :
    ∀ (n : orderly_node) (alloc : Nat) (parent : Option Nat),
      alloc < (ajv_alloc_node_recursive alloc n parent).2 ∧
        (∀ x ∈ (ajv_alloc_node_recursive alloc n parent).1.nodes.map ajv_node.addr,
          alloc ≤ x ∧ x < (ajv_alloc_node_recursive alloc n parent).2) ∧
        ((ajv_alloc_node_recursive alloc n parent).1.nodes.map ajv_node.addr).Nodup
  | .mk name t req regex none none, alloc, parent => by
    rw [ajv_alloc_node_recursive_none_none, ajv_node_nodes_mk]
    exact fresh_addresses alloc (alloc + 1) (alloc + 1) [] [] (le_refl _) (le_refl _)
      (fun _ h => absurd h (List.not_mem_nil _)) (fun _ h => absurd h (List.not_mem_nil _))
      List.nodup_nil List.nodup_nil
  | .mk name t req regex (some s) none, alloc, parent => by
    have hs := ajv_alloc_node_recursive_addresses s (alloc + 1) parent
    rw [ajv_alloc_node_recursive_some_none, ajv_node_nodes_mk]
    simp only [List.map_cons, List.map_append, List.map_nil, ajv_node.addr]
    exact fresh_addresses alloc _ _ _ [] (le_of_lt hs.1) (le_refl _) hs.2.1
      (fun _ h => absurd h (List.not_mem_nil _)) hs.2.2 List.nodup_nil
  | .mk name t req regex none (some c), alloc, parent => by
    have hc := ajv_alloc_node_recursive_addresses c (alloc + 1) (some alloc)
    rw [ajv_alloc_node_recursive_none_some, ajv_node_nodes_mk]
    simp only [List.map_cons, List.map_append, List.map_nil, ajv_node.addr]
    exact fresh_addresses alloc (alloc + 1) _ [] _ (le_refl _) (le_of_lt hc.1)
      (fun _ h => absurd h (List.not_mem_nil _)) hc.2.1 List.nodup_nil hc.2.2
  | .mk name t req regex (some s) (some c), alloc, parent => by
    have hs := ajv_alloc_node_recursive_addresses s (alloc + 1) parent
    have hc := ajv_alloc_node_recursive_addresses c
      (ajv_alloc_node_recursive (alloc + 1) s parent).2 (some alloc)
    rw [ajv_alloc_node_recursive_some_some, ajv_node_nodes_mk]
    simp only [List.map_cons, List.map_append, ajv_node.addr]
    exact fresh_addresses alloc _ _ _ _ (le_of_lt hs.1) (le_of_lt hc.1) hs.2.1 hc.2.1
      hs.2.2 hc.2.2

/-! ## The error slot -/

/-- With a detail that is not the slot's own, `ajv_set_error` leaves the slot holding
exactly the kind, the node and the detail passed, whatever it held before, and the rest
of the handle untouched. -/
theorem ajv_set_error_own_detail (h1 h2 : ajv_state_t) (e : ajv_error) (node : Option Nat)
    (info : Option String) :
    (ajv_set_error h1 e node (info_ptr.own info)).error =
        { code := e, extra_info := info, node := node } ∧
      (ajv_set_error h1 e node (info_ptr.own info)).error =
        (ajv_set_error h2 e node (info_ptr.own info)).error ∧
      ajv_set_error h1 e node (info_ptr.own info) =
        { h1 with error := { code := e, extra_info := info, node := node } } := by
  cases info <;> exact ⟨rfl, rfl, rfl⟩

/-! ## The claims -/

/-- C1: for every schema tree `s`, every parent `p` and every allocator state,
`ajv_alloc_tree` (and the older `ajv_alloc_node_recursive`) returns a state tree with
the shape of `s`: position by position a state node has a sibling exactly when its
schema node has one, a child exactly when its schema node has one, and its `node` field
is the schema node at that position. -/
theorem C1_alloc_tree_mirrors_schema (pcre_compile : String → Option Nat) (alloc : Nat)
    (s : orderly_node) (p : Option Nat) :
    mirrors (ajv_alloc_tree pcre_compile alloc s p).1 s ∧
      mirrors (ajv_alloc_node_recursive alloc s p).1 s :=
  ⟨ajv_alloc_tree_mirrors pcre_compile s alloc p, ajv_alloc_node_recursive_mirrors s alloc p⟩

/-- C2: after `ajv_reset_node t` every node reachable from the tree through any chain of
sibling/child links has `seen = false` and `required = false`. -/
theorem C2_reset_clears_flags (t n : ajv_node) (h : reachable (ajv_reset_node t) n) :
    n.seen = false ∧ n.required = false :=
  ajv_reset_node_flags t n h

/-- Witness of C2: in the used tree the node `y`, reached through the root's child and
that child's sibling, had both flags set; after the reset it has neither. -/
theorem C2_reset_clears_flags_witness :
    state_y.seen = true ∧ state_y.required = true ∧
      reachable (ajv_reset_node state_root) (ajv_reset_node state_y) ∧
      (ajv_reset_node state_y).seen = false ∧ (ajv_reset_node state_y).required = false :=
  have hr : reachable (ajv_reset_node state_root) (ajv_reset_node state_y) :=
    reachable.through_child (c := ajv_reset_node state_x) rfl
      (reachable.through_sibling (s := ajv_reset_node state_y) rfl (reachable.here _))
  ⟨rfl, rfl, hr, C2_reset_clears_flags state_root (ajv_reset_node state_y) hr⟩

/-- C3: binding a schema makes a run independent of earlier runs.  Through an event
source that delivers no event, both `ajv_parse_and_validate` with a schema and
`ajv_validate` show the state they establish, and every tokenizer is fed on that state;
it is the same for any two handle states `h1` and `h2`: the error slot is 'no error' with
no node and no detail, the bound schema is `S` (with its tree reset), the cursor is the
root of `S`, and every node of the tree of `S` has `seen = false` and `required = false`. -/
theorem C3_bind_schema_independent_of_history {J : Type} (h1 h2 : ajv_state_t)
    (S : ajv_schema_t) (jsonText : List UInt8) (jsonTextLength : Nat) (json : J) :
    (ajv_parse_and_validate yajl_parse_no_event h1 jsonText jsonTextLength (some S) =
        some (yajl_status.yajl_status_ok, ajv_bind_schema h1 S) ∧
      ajv_validate synthesize_no_event h1 S json =
        (yajl_status.yajl_status_ok, ajv_bind_schema h1 S) ∧
      (∀ yajl_parse : ajv_state_t → List UInt8 → Nat → yajl_status × ajv_state_t,
        ajv_parse_and_validate yajl_parse h1 jsonText jsonTextLength (some S) =
          ajv_parse_and_validate yajl_parse (ajv_bind_schema h1 S) jsonText jsonTextLength
            none) ∧
      (∀ synth : ajv_state_t → J → Int × ajv_state_t,
        (ajv_validate synth h1 S json).2 = (synth (ajv_bind_schema h1 S) json).2)) ∧
    ((ajv_bind_schema h1 S).error = (ajv_bind_schema h2 S).error ∧
      (ajv_bind_schema h1 S).s = (ajv_bind_schema h2 S).s ∧
      (ajv_bind_schema h1 S).node = (ajv_bind_schema h2 S).node) ∧
    ((ajv_bind_schema h1 S).error =
        { code := ajv_error.ajv_e_no_error, extra_info := none, node := none } ∧
      (ajv_bind_schema h1 S).s = some { root := ajv_reset_node S.root } ∧
      (ajv_bind_schema h1 S).node = some S.root.addr ∧
      (ajv_reset_node S.root).addr = S.root.addr ∧
      ∀ n : ajv_node, reachable (ajv_reset_node S.root) n →
        n.seen = false ∧ n.required = false) := by
  refine ⟨⟨rfl, rfl, fun _ => rfl, fun synth => ?_⟩, ⟨rfl, rfl, rfl⟩, rfl, rfl, rfl, ?_,
    fun n hn => ajv_reset_node_flags S.root n hn⟩
  · unfold ajv_validate
    by_cases hc : (synth (ajv_bind_schema h1 S) json).1 = 1
    · by_cases he : (synth (ajv_bind_schema h1 S) json).2.error.code = ajv_error.ajv_e_no_error
      · simp [hc, he]
      · simp [hc, he]
    · simp [hc]
  · cases S with
    | mk root =>
      cases root with
      | mk addr parent node regcomp sibling child seen required =>
        rw [ajv_reset_node_mk]
        rfl

/-- Witness of C3: a handle on which an earlier run failed at node `x` and a handle that
was never used are in the same state once the used schema is bound, and the node `x` of
the bound tree, reached through the root's child, has lost the flag of the earlier run. -/
theorem C3_bind_schema_independent_of_history_witness :
    failed_handle.error.code = ajv_error.ajv_e_type_mismatch ∧
      state_x.seen = true ∧
      (ajv_bind_schema failed_handle used_schema).error =
        (ajv_bind_schema fresh_handle used_schema).error ∧
      (ajv_bind_schema failed_handle used_schema).node = some 10 ∧
      (ajv_reset_node state_x).seen = false :=
  have h := C3_bind_schema_independent_of_history failed_handle fresh_handle used_schema
    [] 0 ()
  ⟨rfl, rfl, h.2.1.1, h.2.2.2.2.1,
    (h.2.2.2.2.2.2 (ajv_reset_node state_x)
      (reachable.through_child (c := ajv_reset_node state_x) rfl (reachable.here _))).1⟩

/-- C4 at the failing input: on a handle whose slot still holds the error of an earlier
call, fed without a schema by a tokenizer that reports `yajl_status_ok`, the slot holds a
schema error after the feed; the claim says `yajl_status_error` is returned, but the
assertion fails and no status is returned. -/
theorem C4_stale_error_returns_no_status :
    (ajv_parse_and_validate_feed yajl_parse_no_event failed_handle [] 0 none).1 =
        yajl_status.yajl_status_ok ∧
      (ajv_parse_and_validate_feed yajl_parse_no_event failed_handle [] 0 none).2.error.code =
        ajv_error.ajv_e_type_mismatch ∧
      ajv_parse_and_validate yajl_parse_no_event failed_handle [] 0 none = none ∧
      ajv_parse_and_validate yajl_parse_no_event failed_handle [] 0 none ≠
        some (yajl_status.yajl_status_error,
          (ajv_parse_and_validate_feed yajl_parse_no_event failed_handle [] 0 none).2) :=
  ⟨rfl, rfl, rfl, fun h => Option.noConfusion h⟩

/-- The translation of the status in `ajv_parse_and_validate` on the calls where the
assertion holds: for every tokenizer outcome `(stat, hand)` of the feed, the result is
`yajl_status_error` when the slot holds a schema error and the status is
consumer-cancelled, and the tokenizer's own status when the slot holds 'no error'; the
handle state returned is the one the feed left. -/
theorem ajv_parse_and_validate_translation
    (yajl_parse : ajv_state_t → List UInt8 → Nat → yajl_status × ajv_state_t)
    (h : ajv_state_t) (jsonText : List UInt8) (jsonTextLength : Nat)
    (schema : Option ajv_schema_t) (stat : yajl_status) (hand : ajv_state_t)
    (hfeed : ajv_parse_and_validate_feed yajl_parse h jsonText jsonTextLength schema =
      (stat, hand)) :
    (hand.error.code ≠ ajv_error.ajv_e_no_error →
        stat = yajl_status.yajl_status_client_canceled →
        ajv_parse_and_validate yajl_parse h jsonText jsonTextLength schema =
          some (yajl_status.yajl_status_error, hand)) ∧
      (hand.error.code = ajv_error.ajv_e_no_error →
        ajv_parse_and_validate yajl_parse h jsonText jsonTextLength schema =
          some (stat, hand)) := by
  unfold ajv_parse_and_validate
  rw [hfeed]
  constructor
  · intro he hs
    simp [he, hs]
  · intro he
    simp [he]

/-- A feed during which the driver records a type mismatch and cancels is reported as
`yajl_status_error`. -/
theorem ajv_parse_and_validate_translation_example :
    ajv_parse_and_validate yajl_parse_type_mismatch fresh_handle [] 0 (some used_schema) =
      some (yajl_status.yajl_status_error,
        ajv_set_error (ajv_bind_schema fresh_handle used_schema)
          ajv_error.ajv_e_type_mismatch (some 10) (info_ptr.own (some "string"))) :=
  (ajv_parse_and_validate_translation yajl_parse_type_mismatch fresh_handle [] 0 (some used_schema)
    yajl_status.yajl_status_client_canceled
    (ajv_set_error (ajv_bind_schema fresh_handle used_schema)
      ajv_error.ajv_e_type_mismatch (some 10) (info_ptr.own (some "string"))) rfl).1 (by decide) rfl

/-- Counterexample to C5 as stated: when the feed is cancelled and the driver has
recorded no error, `ajv_parse_and_validate` returns the bare
`yajl_status_client_canceled`. -/
theorem C5_counterexample :
    ajv_parse_and_validate yajl_parse_client_cancel fresh_handle [] 0 (some used_schema) =
      some (yajl_status.yajl_status_client_canceled,
        ajv_bind_schema fresh_handle used_schema) :=
  rfl

/-- C5, amended: whenever the tokenizer's feed reports consumer-cancelled and the error
slot holds a schema error, `ajv_parse_and_validate` returns `yajl_status_error`;
whenever the feed reports consumer-cancelled and the slot holds 'no error', it returns
`yajl_status_client_canceled` unchanged; and it returns `yajl_status_client_canceled`
in no other case. -/
theorem C5_cancellation_translation
    (yajl_parse : ajv_state_t → List UInt8 → Nat → yajl_status × ajv_state_t)
    (h : ajv_state_t) (jsonText : List UInt8) (jsonTextLength : Nat)
    (schema : Option ajv_schema_t) (stat : yajl_status) (hand : ajv_state_t)
    (hfeed : ajv_parse_and_validate_feed yajl_parse h jsonText jsonTextLength schema =
      (stat, hand)) :
    (stat = yajl_status.yajl_status_client_canceled →
        hand.error.code ≠ ajv_error.ajv_e_no_error →
        ajv_parse_and_validate yajl_parse h jsonText jsonTextLength schema =
          some (yajl_status.yajl_status_error, hand)) ∧
      (stat = yajl_status.yajl_status_client_canceled →
        hand.error.code = ajv_error.ajv_e_no_error →
        ajv_parse_and_validate yajl_parse h jsonText jsonTextLength schema =
          some (yajl_status.yajl_status_client_canceled, hand)) ∧
      (∀ st : ajv_state_t,
        ajv_parse_and_validate yajl_parse h jsonText jsonTextLength schema =
          some (yajl_status.yajl_status_client_canceled, st) →
        stat = yajl_status.yajl_status_client_canceled ∧
          hand.error.code = ajv_error.ajv_e_no_error) := by
  unfold ajv_parse_and_validate
  rw [hfeed]
  refine ⟨fun hs he => by simp [he, hs], fun hs he => by simp [he, hs], fun st hr => ?_⟩
  by_cases he : hand.error.code = ajv_error.ajv_e_no_error
  · simp [he] at hr
    exact ⟨hr.1, he⟩
  · by_cases hs : stat = yajl_status.yajl_status_client_canceled
    · simp [he, hs] at hr
    · simp [he, hs] at hr

/-- Witness of C5: a feed cancelled by the driver with a recorded type mismatch is
reported as `yajl_status_error`. -/
theorem C5_cancellation_translation_witness :
    (ajv_parse_and_validate_feed yajl_parse_type_mismatch failed_handle [] 0
        (some used_schema)).1 = yajl_status.yajl_status_client_canceled ∧
      ajv_parse_and_validate yajl_parse_type_mismatch failed_handle [] 0 (some used_schema) =
        some (yajl_status.yajl_status_error,
          (ajv_parse_and_validate_feed yajl_parse_type_mismatch failed_handle [] 0
            (some used_schema)).2) :=
  ⟨rfl,
    (C5_cancellation_translation yajl_parse_type_mismatch failed_handle [] 0
      (some used_schema) _ _ rfl).1 rfl (by decide)⟩

/-- C6: for every handle, schema and value tree, with `(cancelled, hand)` the outcome of
the event synthesis on the bound handle, `ajv_validate` returns one of three statuses:
`yajl_status_ok` iff the walk was not cancelled (`cancelled` is not `1`),
`yajl_status_error` iff it was cancelled and the error slot holds a schema error,
`yajl_status_client_canceled` iff it was cancelled and the slot holds 'no error'; the
handle state returned is the one the synthesis left. -/
theorem C6_validate_outcome {J : Type}
    (orderly_synthesize_callbacks : ajv_state_t → J → Int × ajv_state_t)
    (h : ajv_state_t) (schema : ajv_schema_t) (json : J) :
    ((ajv_validate orderly_synthesize_callbacks h schema json).1 =
          yajl_status.yajl_status_ok ∨
        (ajv_validate orderly_synthesize_callbacks h schema json).1 =
          yajl_status.yajl_status_error ∨
        (ajv_validate orderly_synthesize_callbacks h schema json).1 =
          yajl_status.yajl_status_client_canceled) ∧
      ((ajv_validate orderly_synthesize_callbacks h schema json).1 =
          yajl_status.yajl_status_ok ↔
        (orderly_synthesize_callbacks (ajv_bind_schema h schema) json).1 ≠ 1) ∧
      ((ajv_validate orderly_synthesize_callbacks h schema json).1 =
          yajl_status.yajl_status_error ↔
        ((orderly_synthesize_callbacks (ajv_bind_schema h schema) json).1 = 1 ∧
          (orderly_synthesize_callbacks (ajv_bind_schema h schema) json).2.error.code ≠
            ajv_error.ajv_e_no_error)) ∧
      ((ajv_validate orderly_synthesize_callbacks h schema json).1 =
          yajl_status.yajl_status_client_canceled ↔
        ((orderly_synthesize_callbacks (ajv_bind_schema h schema) json).1 = 1 ∧
          (orderly_synthesize_callbacks (ajv_bind_schema h schema) json).2.error.code =
            ajv_error.ajv_e_no_error)) ∧
      (ajv_validate orderly_synthesize_callbacks h schema json).2 =
        (orderly_synthesize_callbacks (ajv_bind_schema h schema) json).2 := by
  unfold ajv_validate
  by_cases hc : (orderly_synthesize_callbacks (ajv_bind_schema h schema) json).1 = 1
  · by_cases he : (orderly_synthesize_callbacks (ajv_bind_schema h schema) json).2.error.code
        = ajv_error.ajv_e_no_error
    · simp [hc, he]
    · simp [hc, he]
  · simp [hc]

/-- C7: for every handle whose schema is bound when the tokenizer's completion call
returns `(stat, hand)`: if `stat` is `yajl_status_ok` or `yajl_status_insufficient_data`
and the root of the schema's tree has `seen = false`, `ajv_parse_complete` returns
`yajl_status_error` and the handle with the error slot set to kind
`ajv_e_incomplete_container`, no node and the non-empty detail "Empty root"; in every
other case it returns `stat` and the handle unchanged. -/
theorem C7_parse_complete
    (yajl_parse_complete : ajv_state_t → yajl_status × ajv_state_t)
    (h : ajv_state_t) (stat : yajl_status) (hand : ajv_state_t) (schema : ajv_schema_t)
    (hcomplete : yajl_parse_complete h = (stat, hand)) (hbound : hand.s = some schema) :
    (((stat = yajl_status.yajl_status_ok ∨ stat = yajl_status.yajl_status_insufficient_data) ∧
          schema.root.seen = false) →
        ajv_parse_complete yajl_parse_complete h =
            some (yajl_status.yajl_status_error,
              { hand with error :=
                  { code := ajv_error.ajv_e_incomplete_container,
                    extra_info := some "Empty root", node := none } }) ∧
          "Empty root" ≠ "") ∧
      (¬ ((stat = yajl_status.yajl_status_ok ∨
            stat = yajl_status.yajl_status_insufficient_data) ∧
          schema.root.seen = false) →
        ajv_parse_complete yajl_parse_complete h = some (stat, hand)) := by
  unfold ajv_parse_complete
  rw [hcomplete]
  constructor
  · rintro ⟨hs, hseen⟩
    refine ⟨?_, by decide⟩
    have hset : ajv_set_error hand ajv_error.ajv_e_incomplete_container none
        (info_ptr.own (some "Empty root")) =
        { hand with error :=
            { code := ajv_error.ajv_e_incomplete_container,
              extra_info := some "Empty root", node := none } } := rfl
    simp only [hs, hbound, hseen, if_true, hset]
  · intro hn
    by_cases hs : stat = yajl_status.yajl_status_ok ∨
        stat = yajl_status.yajl_status_insufficient_data
    · have hseen : ¬ schema.root.seen = false := fun hseen => hn ⟨hs, hseen⟩
      simp only [hs, hbound, if_true]
      simp [hseen]
    · simp only [hs, if_false]

/-- Witness of C7: after a schema is bound and no event has arrived, a successful
completion call yields `yajl_status_error` and the "Empty root" error. -/
theorem C7_parse_complete_witness :
    ajv_parse_complete yajl_parse_complete_ok (ajv_bind_schema fresh_handle used_schema) =
      some (yajl_status.yajl_status_error,
        { ajv_bind_schema fresh_handle used_schema with error :=
            { code := ajv_error.ajv_e_incomplete_container,
              extra_info := some "Empty root", node := none } }) :=
  ((C7_parse_complete yajl_parse_complete_ok (ajv_bind_schema fresh_handle used_schema)
    yajl_status.yajl_status_ok (ajv_bind_schema fresh_handle used_schema)
    { root := ajv_reset_node state_root } rfl rfl).1 ⟨Or.inl rfl, rfl⟩).1

/-- C8: for every handle whose error slot holds 'no error', every verbose flag and every
input text, `ajv_get_error` returns exactly the string the tokenizer's own formatter
returns for the same verbose flag, text and length. -/
theorem C8_get_error_delegates
    (yajl_get_error : Nat → Int → List UInt8 → Nat → String)
    (yajl_err_init : Option String) (yajl_length_init : Int)
    (h : ajv_state_t) (verbose : Int) (jsonText : List UInt8) (jsonTextLength : Nat)
    (hclear : h.error.code = ajv_error.ajv_e_no_error) :
    ajv_get_error yajl_get_error yajl_err_init yajl_length_init h verbose jsonText
        jsonTextLength =
      some (yajl_get_error h.yajl verbose jsonText jsonTextLength) := by
  unfold ajv_get_error
  simp [hclear]

/-- Witness of C8: on a handle that holds no error the message is the tokenizer's. -/
theorem C8_get_error_delegates_witness :
    ajv_get_error yajl_get_error_fixed (some "garbage") 0 fresh_handle 0 [] 0 =
      some "parse error: client cancelled parse via callback return value\n" :=
  C8_get_error_delegates yajl_get_error_fixed (some "garbage") 0 fresh_handle 0 [] 0 rfl

/-- C9 at the failing input: the handle holds a type mismatch at node `x` and verbose is
not requested.  The local `yajl_err` is then never assigned, and the result depends on
what it happens to hold: with `yajl_err` null the message ends after the newline, as the
claim says; with `yajl_err` pointing at the bytes "garbage" these are appended to the
message. -/
theorem C9_non_verbose_reads_uninitialised :
    ajv_get_error yajl_get_error_fixed none 0 failed_handle 0 [] 0 =
        some "VALIDATION ERROR: value for map key 'x':type mismatch\n" ∧
      ajv_get_error yajl_get_error_fixed (some "garbage") 0 failed_handle 0 [] 0 =
        some "VALIDATION ERROR: value for map key 'x':type mismatch\ngarbage" := by
  decide

/-- C10 at the failing input: the handle holds a type mismatch with detail "number", and
`ajv_set_error` is called with the detail pointer of the slot itself as `info`.  The
buffer is released by `ajv_clear_error` before it is copied, so the slot holds what the
released buffer contains, here "garbage", and not the detail "number" that was passed;
the kind and the node are recorded as passed. -/
theorem C10_set_error_reads_released_detail :
    failed_handle.error.extra_info = some "number" ∧
      (ajv_set_error failed_handle ajv_error.ajv_e_regex_failed (some 12)
          (info_ptr.slot_detail "garbage")).error =
        { code := ajv_error.ajv_e_regex_failed, extra_info := some "garbage",
          node := some 12 } ∧
      (ajv_set_error failed_handle ajv_error.ajv_e_regex_failed (some 12)
          (info_ptr.slot_detail "garbage")).error ≠
        { code := ajv_error.ajv_e_regex_failed, extra_info := some "number",
          node := some 12 } := by
  refine ⟨rfl, rfl, by decide⟩

/-- C11: after `ajv_clear_error` the slot has kind 'no error', no offending node and no
detail, and nothing else of the handle has changed; clearing a slot that is already clear
leaves the whole handle state unchanged; and clearing twice is clearing once. -/
theorem C11_clear_error (h : ajv_state_t) :
    (ajv_clear_error h).error =
        { code := ajv_error.ajv_e_no_error, extra_info := none, node := none } ∧
      ajv_clear_error h =
        { h with error :=
            { code := ajv_error.ajv_e_no_error, extra_info := none, node := none } } ∧
      (h.error = { code := ajv_error.ajv_e_no_error, extra_info := none, node := none } →
        ajv_clear_error h = h) ∧
      ajv_clear_error (ajv_clear_error h) = ajv_clear_error h := by
  refine ⟨rfl, rfl, fun hclear => ?_, rfl⟩
  cases h with
  | mk AF any cb cbctx yajl error s node =>
    simp only at hclear
    subst hclear
    rfl

/-- Witness of C11: clearing the slot of a handle that was never used changes nothing. -/
theorem C11_clear_error_witness : ajv_clear_error fresh_handle = fresh_handle :=
  (C11_clear_error fresh_handle).2.2.1 rfl

/-- Counterexample to C12 as stated: the handle holds a type mismatch at node 11 with
detail "number"; a further `ajv_set_error` leaves the slot holding the later error, and
`ajv_parse_complete` finding the root unseen leaves it holding "Empty root". -/
theorem C12_counterexample :
    failed_handle.error =
        { code := ajv_error.ajv_e_type_mismatch, extra_info := some "number",
          node := some 11 } ∧
      (ajv_set_error failed_handle ajv_error.ajv_e_regex_failed (some 12)
          (info_ptr.own (some "pattern"))).error =
        { code := ajv_error.ajv_e_regex_failed, extra_info := some "pattern",
          node := some 12 } ∧
      (ajv_set_error failed_handle ajv_error.ajv_e_regex_failed (some 12)
          (info_ptr.own (some "pattern"))).error ≠ failed_handle.error ∧
      (ajv_parse_complete yajl_parse_complete_ok
          { failed_handle with s := some { root := ajv_reset_node state_root } }).map
          (fun r => r.2.error) =
        some { code := ajv_error.ajv_e_incomplete_container,
               extra_info := some "Empty root", node := none } := by
  refine ⟨rfl, rfl, by decide, rfl⟩

theorem ajv_parse_complete_error
    (yajl_parse_complete : ajv_state_t → yajl_status × ajv_state_t)
    (h : ajv_state_t) (stat : yajl_status) (hand : ajv_state_t) (schema : ajv_schema_t)
    (hcomplete : yajl_parse_complete h = (stat, hand)) (hbound : hand.s = some schema) :
    (ajv_parse_complete yajl_parse_complete h).map (fun r => r.2.error) =
      some (if (stat = yajl_status.yajl_status_ok ∨
                stat = yajl_status.yajl_status_insufficient_data) ∧
              schema.root.seen = false
            then { code := ajv_error.ajv_e_incomplete_container,
                   extra_info := some "Empty root", node := none }
            else hand.error) := by
  unfold ajv_parse_complete
  rw [hcomplete]
  by_cases hs : stat = yajl_status.yajl_status_ok ∨
      stat = yajl_status.yajl_status_insufficient_data
  · by_cases hseen : schema.root.seen = false
    · have hset : (ajv_set_error hand ajv_error.ajv_e_incomplete_container none
          (info_ptr.own (some "Empty root"))).error =
          { code := ajv_error.ajv_e_incomplete_container,
            extra_info := some "Empty root", node := none } := rfl
      simp only [hs, hbound, hseen, if_true, and_self, Option.map, hset]
    · simp only [hs, hbound, if_true, true_and]
      simp [hseen]
  · simp only [hs, if_false, false_and, Option.map]

/-- C12, amended: the slot holds one error and the last one reported wins.  Whatever
the slot of the handle `h` holds, in particular once it holds a schema error, a further
`ajv_set_error` that brings a detail of its own replaces the recorded kind, node and
detail by those of the later error;
`ajv_parse_complete` replaces them by `ajv_e_incomplete_container`, no node and
"Empty root" when the completion status is ok or insufficient data and the root is
unseen, and retains them in every other case. -/
theorem C12_last_error_wins (h : ajv_state_t) :
    (∀ (e : ajv_error) (node : Option Nat) (info : Option String),
        (ajv_set_error h e node (info_ptr.own info)).error =
          { code := e, extra_info := info, node := node }) ∧
      (∀ (yajl_parse_complete : ajv_state_t → yajl_status × ajv_state_t)
          (h0 : ajv_state_t) (stat : yajl_status) (schema : ajv_schema_t),
        yajl_parse_complete h0 = (stat, h) → h.s = some schema →
        (((stat = yajl_status.yajl_status_ok ∨
              stat = yajl_status.yajl_status_insufficient_data) ∧
            schema.root.seen = false) →
          (ajv_parse_complete yajl_parse_complete h0).map (fun r => r.2.error) =
            some { code := ajv_error.ajv_e_incomplete_container,
                   extra_info := some "Empty root", node := none }) ∧
        (¬ ((stat = yajl_status.yajl_status_ok ∨
              stat = yajl_status.yajl_status_insufficient_data) ∧
            schema.root.seen = false) →
          (ajv_parse_complete yajl_parse_complete h0).map (fun r => r.2.error) =
            some h.error)) := by
  refine ⟨fun e node info => by cases info <;> rfl, ?_⟩
  intro ypc h0 stat schema hc hb
  have hmain := ajv_parse_complete_error ypc h0 stat h schema hc hb
  exact ⟨fun hcond => by rw [hmain, if_pos hcond], fun hcond => by rw [hmain, if_neg hcond]⟩

/-- Witness of C12: on the handle that holds a type mismatch, a later regex failure
replaces it, and so does the completion of the parse when the root is unseen. -/
theorem C12_last_error_wins_witness :
    failed_handle.error.code = ajv_error.ajv_e_type_mismatch ∧
      (ajv_set_error failed_handle ajv_error.ajv_e_regex_failed (some 12)
          (info_ptr.own (some "pattern"))).error =
        { code := ajv_error.ajv_e_regex_failed, extra_info := some "pattern",
          node := some 12 } ∧
      (ajv_parse_complete yajl_parse_complete_ok
          { failed_handle with s := some { root := ajv_reset_node state_root } }).map
          (fun r => r.2.error) =
        some { code := ajv_error.ajv_e_incomplete_container,
               extra_info := some "Empty root", node := none } :=
  ⟨rfl,
    (C12_last_error_wins failed_handle).1 ajv_error.ajv_e_regex_failed (some 12)
      (some "pattern"),
    ((C12_last_error_wins
        { failed_handle with s := some { root := ajv_reset_node state_root } }).2
      yajl_parse_complete_ok
      { failed_handle with s := some { root := ajv_reset_node state_root } }
      yajl_status.yajl_status_ok { root := ajv_reset_node state_root } rfl rfl).1
      ⟨Or.inl rfl, rfl⟩⟩

/-- C13: `ajv_free_node` (of both variants) called with a `NULL` argument or on a
reference that holds `NULL` changes nothing and releases nothing; called on a reference
that holds a tree it leaves the reference `NULL`; so a second call on the same reference
changes nothing and releases nothing. -/
theorem C13_free_node_nulls_reference (n : Option (Option ajv_node)) (t : ajv_node) :
    (ajv_free_node none = (none, []) ∧
      ajv_free_node (some none) = (some none, []) ∧
      (ajv_free_node (some (some t))).1 = some none ∧
      ajv_free_node (ajv_free_node n).1 = ((ajv_free_node n).1, [])) ∧
    (validator.ajv_free_node none = (none, []) ∧
      validator.ajv_free_node (some none) = (some none, []) ∧
      (validator.ajv_free_node (some (some t))).1 = some none ∧
      validator.ajv_free_node (validator.ajv_free_node n).1 =
        ((validator.ajv_free_node n).1, [])) := by
  refine ⟨⟨rfl, rfl, rfl, ?_⟩, rfl, rfl, rfl, ?_⟩
  · rcases n with _ | _ | _ <;> rfl
  · rcases n with _ | _ | _ <;> rfl

/-- C14: for every state tree `t`, the releases `ajv_free_node` performs on a reference
to its root free the state nodes of the tree, each exactly once (the freed addresses are
a permutation of the addresses of the nodes, and the nodes are those reachable through
sibling/child links); every release is the `OR_FREE` of a state node of the tree or the
`pcre_free` of the matcher of one, so no schema node is released; and for every node `m`
of the tree the releases contain, as one contiguous run, the releases of the sibling
subtree of `m`, then those of its child subtree, then the `pcre_free` of its matcher when
it has one, then the `OR_FREE` of `m`. -/
theorem C14_free_node_releases (t : ajv_node) :
    ((ajv_free_node (some (some t))).2.filterMap release.freed_node).Perm
        (t.nodes.map ajv_node.addr) ∧
      (∀ m : ajv_node, m ∈ t.nodes ↔ reachable t m) ∧
      (∀ r : release, r ∈ (ajv_free_node (some (some t))).2 →
        ∃ m, reachable t m ∧ (r = release.OR_FREE m.addr ∨
          ∃ p, m.regcomp = some p ∧ r = release.pcre_free p)) ∧
      (∀ m : ajv_node, reachable t m →
        (ajv_free_node (some m.sibling)).2 ++ (ajv_free_node (some m.child)).2 ++
            (match m.regcomp with
             | some r => [release.pcre_free r]
             | none => []) ++
            [release.OR_FREE m.addr] <:+: (ajv_free_node (some (some t))).2) := by
  refine ⟨ajv_free_node_releases_nodes t,
    fun m => ⟨mem_nodes_reachable t m, reachable_mem_nodes⟩, fun r hr => ?_, fun m hm => ?_⟩
  · obtain ⟨m, hm, h⟩ := ajv_free_node_releases_origin t r hr
    exact ⟨m, mem_nodes_reachable t m hm, h⟩
  · rw [← ajv_free_node_releases_eq m]
    exact ajv_free_node_releases_infix hm

/-- Witness of C14: the releases for the used tree, and the run of the node `x`, whose
sibling `y` is freed first, then its matcher, then the node itself. -/
theorem C14_free_node_releases_witness :
    (ajv_free_node (some (some state_root))).2 =
        [release.OR_FREE 12, release.pcre_free 77, release.OR_FREE 11, release.OR_FREE 10] ∧
      reachable state_root state_x ∧
      [release.OR_FREE 12, release.pcre_free 77, release.OR_FREE 11] <:+:
        (ajv_free_node (some (some state_root))).2 :=
  have hx : reachable state_root state_x :=
    reachable.through_child (c := state_x) rfl (reachable.here _)
  ⟨rfl, hx, (C14_free_node_releases state_root).2.2.2 state_x hx⟩

/-- C15: tree construction never fails because of a pattern.  For every schema tree and
every pattern compiler `pcre_compile`, also one that fails on every pattern,
`ajv_alloc_tree` returns a state tree of the schema's shape; the matcher of every node of
it is the compiler's result for the pattern of its schema node when that has a pattern
and is absent when it has none; and for any two compilers the trees are equal once the
matchers are removed, and so are the allocators after the call. -/
theorem C15_alloc_tree_tolerates_compile_failure (pcre_compile other : String → Option Nat)
    (alloc : Nat) (s : orderly_node) (p : Option Nat) :
    mirrors (ajv_alloc_tree pcre_compile alloc s p).1 s ∧
      mirrors (ajv_alloc_tree (fun _ => none) alloc s p).1 s ∧
      (∀ m : ajv_node, reachable (ajv_alloc_tree pcre_compile alloc s p).1 m →
        m.regcomp = (match m.node.regex with
                     | some r => pcre_compile r
                     | none => none)) ∧
      (∀ m : ajv_node, reachable (ajv_alloc_tree (fun _ => none) alloc s p).1 m →
        m.regcomp = none) ∧
      (ajv_alloc_tree pcre_compile alloc s p).1.without_matchers =
        (ajv_alloc_tree other alloc s p).1.without_matchers ∧
      (ajv_alloc_tree pcre_compile alloc s p).2 = (ajv_alloc_tree other alloc s p).2 := by
  refine ⟨ajv_alloc_tree_mirrors pcre_compile s alloc p,
    ajv_alloc_tree_mirrors (fun _ => none) s alloc p,
    ajv_alloc_tree_regcomp pcre_compile s alloc p, fun m hm => ?_,
    (ajv_alloc_tree_compiler_independent pcre_compile other s alloc p).2,
    (ajv_alloc_tree_compiler_independent pcre_compile other s alloc p).1⟩
  have h := ajv_alloc_tree_regcomp (fun _ => none) s alloc p m hm
  rw [h]
  cases m.node.regex <;> rfl

/-- Witness of C15: with a compiler that fails on every pattern the tree for the example
schema is built, and the node of `x`, whose schema node has a pattern, has no matcher. -/
theorem C15_alloc_tree_tolerates_compile_failure_witness :
    schema_x.regex = some "^[0-9]+$" ∧
      (ajv_alloc_tree (fun _ => none) 10 schema_root none).1 =
        .mk 10 none schema_root none none
          (some (.mk 11 (some 10) schema_x none
            (some (.mk 12 (some 10) schema_y none none none false false)) none false false))
          false false ∧
      (ajv_node.mk 11 (some 10) schema_x none
        (some (.mk 12 (some 10) schema_y none none none false false)) none false
        false).regcomp = none :=
  ⟨rfl, rfl,
    (C15_alloc_tree_tolerates_compile_failure (fun _ => some 77) (fun _ => none) 10
      schema_root none).2.2.2.1 _
      (reachable.through_child (t := (ajv_alloc_tree (fun _ => none) 10 schema_root none).1)
        rfl (reachable.here _))⟩

/-- C16: `ajv_reset_node` is idempotent, resetting twice yields the tree of resetting once;
it is a total function on every tree; and on a tree just built by `ajv_alloc_tree`, which
has never been validated, it returns the tree as built. -/
theorem C16_reset_idempotent (t : ajv_node) (pcre_compile : String → Option Nat)
    (alloc : Nat) (s : orderly_node) (p : Option Nat) :
    ajv_reset_node (ajv_reset_node t) = ajv_reset_node t ∧
      (∃ r : ajv_node, ajv_reset_node t = r) ∧
      ajv_reset_node (ajv_alloc_tree pcre_compile alloc s p).1 =
        (ajv_alloc_tree pcre_compile alloc s p).1 :=
  ⟨ajv_reset_node_idempotent t, ⟨_, rfl⟩, ajv_reset_node_alloc_tree pcre_compile s alloc p⟩

/-- C17: `ajv_reset_node` changes only the flags `seen` and `required`: the tree after
the reset has the same sibling/child links, and position by position every node keeps
its address, its parent reference, its schema reference and its compiled matcher. -/
theorem C17_reset_changes_only_flags (t : ajv_node) :
    same_except_flags t (ajv_reset_node t) ∧
      (ajv_reset_node t).addr = t.addr ∧ (ajv_reset_node t).parent = t.parent ∧
      (ajv_reset_node t).node = t.node ∧ (ajv_reset_node t).regcomp = t.regcomp ∧
      (ajv_reset_node t).sibling = t.sibling.map ajv_reset_node ∧
      (ajv_reset_node t).child = t.child.map ajv_reset_node := by
  refine ⟨ajv_reset_node_same_except_flags t, ?_⟩
  cases t with
  | mk addr parent node regcomp sibling child seen required =>
    rw [ajv_reset_node_mk]
    exact ⟨rfl, rfl, rfl, rfl, rfl, rfl⟩

/-- C19: the tree returned by `ajv_alloc_tree` for the schema `s` and the parent `p` (and
the tree returned by the older `ajv_alloc_node_recursive`) has a node for every schema
node, sibling for sibling and child for child; its nodes have pairwise distinct
addresses; every node on the top-level sibling chain has parent `p`; for every node `m`
of the tree, every node on the sibling chain that starts at the child of `m` has the
address of `m` as parent; and all siblings of a node share its parent. -/
theorem C19_alloc_tree_parents (pcre_compile : String → Option Nat) (alloc : Nat)
    (s : orderly_node) (p : Option Nat) :
    (mirrors (ajv_alloc_tree pcre_compile alloc s p).1 s ∧
      ((ajv_alloc_tree pcre_compile alloc s p).1.nodes.map ajv_node.addr).Nodup ∧
      (ajv_alloc_tree pcre_compile alloc s p).1.parent = p ∧
      (∀ n : ajv_node, on_sibling_chain (ajv_alloc_tree pcre_compile alloc s p).1 n →
          n.parent = p) ∧
      (∀ m c n : ajv_node, reachable (ajv_alloc_tree pcre_compile alloc s p).1 m →
          m.child = some c → on_sibling_chain c n → n.parent = some m.addr) ∧
      (∀ m n : ajv_node, reachable (ajv_alloc_tree pcre_compile alloc s p).1 m →
          on_sibling_chain m n → n.parent = m.parent)) ∧
    (mirrors (ajv_alloc_node_recursive alloc s p).1 s ∧
      ((ajv_alloc_node_recursive alloc s p).1.nodes.map ajv_node.addr).Nodup ∧
      (ajv_alloc_node_recursive alloc s p).1.parent = p ∧
      (∀ n : ajv_node, on_sibling_chain (ajv_alloc_node_recursive alloc s p).1 n →
          n.parent = p) ∧
      (∀ m c n : ajv_node, reachable (ajv_alloc_node_recursive alloc s p).1 m →
          m.child = some c → on_sibling_chain c n → n.parent = some m.addr) ∧
      (∀ m n : ajv_node, reachable (ajv_alloc_node_recursive alloc s p).1 m →
          on_sibling_chain m n → n.parent = m.parent)) :=
  ⟨⟨ajv_alloc_tree_mirrors pcre_compile s alloc p,
      (ajv_alloc_tree_addresses pcre_compile s alloc p).2.2,
      parents_linked_parent (ajv_alloc_tree_parents_linked pcre_compile s alloc p),
      parents_linked_spec (ajv_alloc_tree_parents_linked pcre_compile s alloc p)⟩,
    ⟨ajv_alloc_node_recursive_mirrors s alloc p,
      (ajv_alloc_node_recursive_addresses s alloc p).2.2,
      parents_linked_parent (ajv_alloc_node_recursive_parents_linked s alloc p),
      parents_linked_spec (ajv_alloc_node_recursive_parents_linked s alloc p)⟩⟩

/-- C18 at the failing input: the handle holds a type mismatch at node `x` with detail
"number" and verbose is not requested, so `yajl_length` is never assigned.  Holding
`-1000`, it makes `max_length` 31, where the claim's formula gives 1093, and the composed
message has 54 characters: it does not fit the 32 bytes of the buffer. -/
theorem C18_non_verbose_buffer_too_small :
    ajv_get_error_locals yajl_get_error_fixed none (-1000) failed_handle 0 [] 0 =
        (none, -1000) ∧
      failed_handle.error_name = some (some "x") ∧
      ajv_get_error_max_length failed_handle.error (-1000) (some "x") = 31 ∧
      1024 + detail_length failed_handle.error + (yajl_get_error_fixed 5 0 [] 0).length +
        name_length (some "x") = 1093 ∧
      (ajv_get_error_ret failed_handle.error none (some "x")).length = 54 ∧
      ajv_get_error yajl_get_error_fixed none (-1000) failed_handle 0 [] 0 = none := by
  decide

/-- Witness of C19: in the tree built for the example schema with a null parent, the
root has a null parent; the root has a child for `x`, which has a sibling for `y`, as in
the schema; and both have the address of the root as parent. -/
theorem C19_alloc_tree_parents_witness :
    (ajv_alloc_tree (fun _ => some 77) 10 schema_root none).1.parent = none ∧
      ∃ x y : ajv_node,
        (ajv_alloc_tree (fun _ => some 77) 10 schema_root none).1.child = some x ∧
          x.sibling = some y ∧ x.node = schema_x ∧ y.node = schema_y ∧
          x.parent = some (ajv_alloc_tree (fun _ => some 77) 10 schema_root none).1.addr ∧
          y.parent = some (ajv_alloc_tree (fun _ => some 77) 10 schema_root none).1.addr :=
  have h := (C19_alloc_tree_parents (fun _ => some 77) 10 schema_root none).1
  ⟨h.2.2.2.1 _ (on_sibling_chain.first _),
    (ajv_alloc_tree (fun _ => some 77) 11 schema_x (some 10)).1,
    (ajv_alloc_tree (fun _ => some 77) 12 schema_y (some 10)).1,
    rfl, rfl, rfl, rfl,
    h.2.2.2.2.1 (ajv_alloc_tree (fun _ => some 77) 10 schema_root none).1 _ _
      (reachable.here _) rfl (on_sibling_chain.first _),
    h.2.2.2.2.1 (ajv_alloc_tree (fun _ => some 77) 10 schema_root none).1
      (ajv_alloc_tree (fun _ => some 77) 11 schema_x (some 10)).1 _
      (reachable.here _) rfl
      (on_sibling_chain.next
        (s := (ajv_alloc_tree (fun _ => some 77) 12 schema_y (some 10)).1) rfl
        (on_sibling_chain.first _))⟩

/-- C20 at the failing input: the tokenizer `yajl_parse_by_input` meets the assumption,
its callbacks record an error only when they cancel.  A first call binds the schema,
the driver records a type mismatch and cancels, and the call returns
`yajl_status_error`.  A second call on the handle this leaves, with no schema and empty
input, delivers no event: the slot still holds the error, the status is
`yajl_status_ok`, the assertion fails and the call returns nothing. -/
theorem C20_assertion_fails_on_stale_error :
    records_only_when_cancelling yajl_parse_by_input ∧
      ajv_parse_and_validate yajl_parse_by_input fresh_handle [123] 1 (some used_schema) =
        some (yajl_status.yajl_status_error,
          ajv_set_error (ajv_bind_schema fresh_handle used_schema)
            ajv_error.ajv_e_type_mismatch (some 10) (info_ptr.own (some "string"))) ∧
      ajv_parse_and_validate_feed yajl_parse_by_input
          (ajv_set_error (ajv_bind_schema fresh_handle used_schema)
            ajv_error.ajv_e_type_mismatch (some 10) (info_ptr.own (some "string"))) [] 0 none =
        (yajl_status.yajl_status_ok,
          ajv_set_error (ajv_bind_schema fresh_handle used_schema)
            ajv_error.ajv_e_type_mismatch (some 10) (info_ptr.own (some "string"))) ∧
      ajv_parse_and_validate yajl_parse_by_input
          (ajv_set_error (ajv_bind_schema fresh_handle used_schema)
            ajv_error.ajv_e_type_mismatch (some 10) (info_ptr.own (some "string"))) [] 0 none = none := by
  refine ⟨fun hand jsonText jsonTextLength hs => ?_, rfl, rfl, rfl⟩
  unfold yajl_parse_by_input at hs ⊢
  by_cases hl : jsonTextLength = 0
  · simp only [hl, if_true]
    rfl
  · simp only [hl, if_false] at hs
    exact absurd rfl hs

end Orderly
